import Mathlib

/-!
# Verification of the ollama2openai gateway against its specification

Shallow embedding of the core of the `ollama2openai` proxy (an
OpenAI-compatible HTTP gateway in front of Ollama backends) and proofs of the
frozen claims about it.

Conventions used throughout the embedding:

* JavaScript objects become Lean structures; a field that may be `undefined`
  (or `null`) becomes an `Option`.
* JavaScript `x || d` on non-negative integer fields becomes `jsOrNat`
  (`0`, `null` and `undefined` are all falsy); on string fields it becomes
  `jsOrStr` (`""` is falsy).
* `Date.now()` timestamps and randomly generated identifiers
  (`crypto.randomUUID()`, `generateChatId()`, `generateToolCallId()`) are
  nondeterministic inputs of the process; they are passed to the embedded
  functions as explicit arguments.
* Numeric payloads that the gateway merely forwards without inspecting
  (temperatures, penalties, embedding vector entries, ...) are carried as
  `Int`; the code never computes with them, so the carrier type is
  irrelevant to every claim.
* The repository snapshot contains two versions of `src/core/transformer.js`.
  The current one (the version the routes in `src/routes/openai.js` and the
  unit tests in `test/unit.test.js` are written against: it takes the
  `tokenCount` argument of `transformStreamChunk`, the `requestMessages`
  argument of `transformChatResponse`, and contains `estimateTokens` and the
  repaired `transformEmbeddingsResponse`) is the one embedded here.  Where a
  claim is sensitive to the difference between the two versions this is noted
  at the claim.
-/

/-- JavaScript `x || d` for an optional non-negative integer `x`:
`undefined`/`null` and `0` are falsy, every other value is returned as-is. -/
def jsOrNat (x : Option Nat) (d : Nat) : Nat :=
  match x with
  | some v => if v = 0 then d else v
  | none => d

/-- JavaScript `x || d` for an optional string `x`: `undefined`/`null` and the
empty string are falsy. -/
def jsOrStr (x : Option String) (d : String) : String :=
  match x with
  | some s => if s = "" then d else s
  | none => d

/-- A JSON value that the gateway forwards without inspecting, represented by
its serialized text.  `jstr` is a JSON string value, `jobj` any other JSON
value (object, array, number, ...) identified by its `JSON.stringify` text. -/
inductive JsonArgs where
  | jstr (s : String)
  | jobj (serialized : String)
deriving Repr, DecidableEq

/-- `typeof v === 'string' ? v : JSON.stringify(v || {})` — the argument
serialization used for tool calls in responses (`transformer.js`). -/
def stringifyArgs (v : Option JsonArgs) : String :=
  match v with
  | some (.jstr s) => s
  | some (.jobj r) => r
  | none => "{}"

-- ============================================================
-- Transformer: data model (Ollama side)
-- ============================================================

/-- A tool call inside an Ollama chat message. -/
structure OllamaToolCall where
  name : Option String
  arguments : Option JsonArgs
deriving Repr, DecidableEq

/-- The `message` object of an Ollama chat response / stream chunk. -/
structure OllamaMessage where
  role : Option String
  content : Option String
  thinking : Option String
  tool_calls : Option (List OllamaToolCall)
deriving Repr, DecidableEq

instance : Inhabited OllamaMessage := ⟨⟨none, none, none, none⟩⟩

/-- One newline-delimited JSON object of an Ollama chat stream (also the shape
of a whole non-streaming chat response). -/
structure OllamaChunk where
  model : Option String
  message : Option OllamaMessage
  done : Bool
  done_reason : Option String
  prompt_eval_count : Option Nat
  eval_count : Option Nat
deriving Repr, DecidableEq

-- ============================================================
-- Transformer: data model (OpenAI side, outputs)
-- ============================================================

/-- A tool call as emitted in an OpenAI response. -/
structure OpenAIToolCallOut where
  index : Nat
  id : String
  type : String
  function_name : String
  function_arguments : String
deriving Repr, DecidableEq

/-- The `usage` object of an OpenAI response. -/
structure ChatUsage where
  prompt_tokens : Nat
  completion_tokens : Nat
  total_tokens : Nat
deriving Repr, DecidableEq

/-- The `delta` object of an OpenAI streaming chunk. -/
structure ChatDelta where
  role : Option String
  content : Option String
  reasoning_content : Option String
  tool_calls : Option (List OpenAIToolCallOut)
deriving Repr, DecidableEq

/-- The single choice of an OpenAI streaming chunk. -/
structure ChunkChoice where
  index : Nat
  delta : ChatDelta
  finish_reason : Option String
deriving Repr, DecidableEq

/-- An OpenAI `chat.completion.chunk` SSE payload. -/
structure OpenAIChunkOut where
  id : String
  object : String
  created : Nat
  model : String
  choices : List ChunkChoice
  usage : Option ChatUsage
deriving Repr, DecidableEq

/-- The message of a non-streaming OpenAI chat response. -/
structure ChatRespMessage where
  role : String
  content : String
  tool_calls : Option (List OpenAIToolCallOut)
  reasoning_content : Option String
deriving Repr, DecidableEq

/-- The single choice of a non-streaming OpenAI chat response. -/
structure ChatRespChoice where
  index : Nat
  message : ChatRespMessage
  finish_reason : String
deriving Repr, DecidableEq

/-- A non-streaming OpenAI `chat.completion` response. -/
structure OpenAIChatResponse where
  id : String
  object : String
  created : Nat
  model : String
  choices : List ChatRespChoice
  usage : ChatUsage
  system_fingerprint : String
deriving Repr, DecidableEq

/-- `toolCalls && toolCalls.length > 0` — the guard of `mapFinishReason`. -/
def hasToolCalls (toolCalls : Option (List OllamaToolCall)) : Bool :=
  match toolCalls with
  | some l => 0 < l.length
  | none => false

/-- `mapFinishReason(doneReason, toolCalls)` from `transformer.js`. -/
def mapFinishReason (doneReason : Option String) (toolCalls : Option (List OllamaToolCall)) : String :=
  if hasToolCalls toolCalls then "tool_calls"
  else
    match doneReason with
    | some "stop" => "stop"
    | some "length" => "length"
    | some "load" => "stop"
    | some "unload" => "stop"
    | _ => "stop"

/-- The tool-call rendering shared by `transformChatResponse` and
`transformStreamChunk`: each upstream tool call becomes
`{index, id, type:"function", function:{name, arguments}}`.  `genToolId idx`
stands for the random `generateToolCallId()` drawn for position `idx`. -/
def renderToolCalls (genToolId : Nat → String) (tcs : List OllamaToolCall) : List OpenAIToolCallOut :=
  tcs.enum.map fun p =>
    { index := p.1
      id := genToolId p.1
      type := "function"
      function_name := (p.2.name).getD ""
      function_arguments := stringifyArgs p.2.arguments }

/-- `transformStreamChunk(ollamaChunk, chatId, created, model, isFirstChunk, tokenCount)`
from the current `transformer.js`.  `genToolId` models the random tool-call id
generator. -/
def transformStreamChunk (genToolId : Nat → String) (ollamaChunk : OllamaChunk)
    (chatId : String) (created : Nat) (model : String)
    (isFirstChunk : Bool) (tokenCount : Nat) : OpenAIChunkOut :=
  let message := ollamaChunk.message.getD default
  let content := message.content.getD ""
  let thinking := message.thinking.getD ""
  let toolCalls := message.tool_calls
  let isDone := ollamaChunk.done
  let doneReason := ollamaChunk.done_reason
  let delta : ChatDelta :=
    { role := if isFirstChunk then some "assistant" else none
      content := if content = "" then none else some content
      reasoning_content := if thinking = "" then none else some thinking
      tool_calls :=
        match toolCalls with
        | some tcs => some (renderToolCalls genToolId tcs)
        | none => none }
  let finishReason : Option String :=
    if isDone then some (mapFinishReason doneReason toolCalls) else none
  -- BUG FIX in source: tokenCount tracks content chunks (completion side only),
  -- so it is NOT used as fallback for prompt_tokens.
  let promptTokens := jsOrNat ollamaChunk.prompt_eval_count 0
  let completionTokens := jsOrNat ollamaChunk.eval_count tokenCount
  let usage : Option ChatUsage :=
    if isDone then
      some { prompt_tokens := promptTokens
             completion_tokens := completionTokens
             total_tokens := promptTokens + completionTokens }
    else none
  { id := chatId
    object := "chat.completion.chunk"
    created := created
    model := jsOrStr ollamaChunk.model model
    choices := [{ index := 0, delta := delta, finish_reason := finishReason }]
    usage := usage }

-- ============================================================
-- Token estimation (current transformer.js)
-- ============================================================

/-- The CJK character class of `estimateTokens`:
`[一-鿿㐀-䶿぀-ゟ゠-ヿ가-힯]`. -/
def isCJKChar (ch : Char) : Bool :=
  let n := ch.toNat
  (0x4e00 ≤ n && n ≤ 0x9fff) || (0x3400 ≤ n && n ≤ 0x4dbf) ||
  (0x3040 ≤ n && n ≤ 0x309f) || (0x30a0 ≤ n && n ≤ 0x30ff) ||
  (0xac00 ≤ n && n ≤ 0xd7af)

/-- `estimateTokens(text)` from the current `transformer.js`:
`Math.ceil(cjkCount / 1.5 + otherCount / 4)`.
`⌈c/1.5 + o/4⌉ = ⌈(8c + 3o)/12⌉ = (8c + 3o + 11) / 12` in Nat division; the
IEEE-754 evaluation in the source coincides with the exact rational ceiling
for every string shorter than 2^49 characters (JS strings are < 2^30), since
the only rounding, in `cjkCount / 1.5`, is then smaller than the 1/12 gap
between the exact sum and the nearest integer.  All listed code points are in
the BMP, so JS UTF-16 `length` agrees with the Lean character count on the
strings concerned. -/
def estimateTokens (text : String) : Nat :=
  if text = "" then 0
  else
    let cjkCount := text.toList.countP isCJKChar
    let otherCount := text.length - cjkCount
    (8 * cjkCount + 3 * otherCount + 11) / 12

-- ============================================================
-- Request-side content model (OpenAI chat request messages)
-- ============================================================

/-- One element of a multimodal `content` array. -/
inductive ContentPart where
  | textPart (text : String)
  | imagePart (url : String)
  | otherPart
deriving Repr, DecidableEq

/-- The `content` field of an OpenAI request message: a string, a multimodal
array, some other non-null scalar (carried via its `String(...)` rendering),
or `null`/`undefined`. -/
inductive JsContent where
  | str (s : String)
  | parts (l : List ContentPart)
  | other (stringified : String)
  | nullish
deriving Repr, DecidableEq

/-- A tool call inside an OpenAI request message. -/
structure OpenAIReqToolCall where
  function_name : Option String
  function_arguments : Option JsonArgs
deriving Repr, DecidableEq

/-- A message of an OpenAI chat request. -/
structure OpenAIReqMessage where
  role : String
  content : JsContent
  tool_calls : Option (List OpenAIReqToolCall)
  tool_call_id : Option String
deriving Repr, DecidableEq

/-- `JSON.stringify(msg.content)` for non-string content (used by the
tool-reply branch of the message mapping).  No claim inspects this text, so a
canonical rendering without escaping is used for the serialized form. -/
def jsonStringifyContent : JsContent → String
  | .str s => "\"" ++ s ++ "\""
  | .parts l =>
      "[" ++ String.intercalate ","
        (l.map fun p =>
          match p with
          | .textPart t => "\x7btype:text,text:" ++ t ++ "\x7d"
          | .imagePart u => "\x7btype:image_url,url:" ++ u ++ "\x7d"
          | .otherPart => "\x7b\x7d") ++ "]"
  | .other s => s
  | .nullish => "null"

/-- The base64 extraction applied to each `image_url` part:
if the url starts with `data:image/` and matches
`^data:image\/[^;]+;base64,(.+)$`, keep only the base64 payload (the capture
group: everything after the first `;`, which must introduce `;base64,`);
otherwise keep the url verbatim. -/
def extractImageData (url : String) : String :=
  if url.startsWith "data:image/" then
    let rest := url.drop 11
    match rest.toList.findIdx? (fun c => c = ';') with
    | some i =>
        if 0 < i && (rest.drop i).startsWith ";base64," && rest.drop (i + 8) ≠ "" then
          rest.drop (i + 8)
        else url
    | none => url
  else url

/-- Canonicalized tool-call arguments in an Ollama request:
`parsedFrom s` is `JSON.parse(s)` when it succeeds and `{}` otherwise (the
gateway never inspects the parsed value, only forwards it); `passed r` is a
non-string value passed through unchanged. -/
inductive OllamaToolArgs where
  | parsedFrom (s : String)
  | passed (serialized : String)
deriving Repr, DecidableEq

/-- A tool call of an Ollama request message. -/
structure OllamaReqToolCall where
  name : Option String
  arguments : Option OllamaToolArgs
deriving Repr, DecidableEq

/-- A message of an Ollama `/api/chat` request. -/
structure OllamaReqMessage where
  role : String
  content : String
  images : Option (List String)
  tool_calls : Option (List OllamaReqToolCall)
  tool_call_id : Option String
deriving Repr, DecidableEq

/-- The per-message mapping inside `transformChatRequest`. -/
def transformReqMessage (msg : OpenAIReqMessage) : OllamaReqMessage :=
  let contentImages : String × List String :=
    match msg.content with
    | .str s => (s, [])
    | .parts l =>
        let textParts := l.filterMap fun p =>
          match p with | .textPart t => some t | _ => none
        let images := l.filterMap fun p =>
          match p with | .imagePart u => some (extractImageData u) | _ => none
        (String.intercalate "\n" textParts, images)
    | .other s => (s, [])
    | .nullish => ("", [])
  let tool_calls : Option (List OllamaReqToolCall) :=
    match msg.tool_calls with
    | some tcs => some (tcs.map fun tc =>
        { name := tc.function_name
          arguments :=
            match tc.function_arguments with
            | some (.jstr s) => some (.parsedFrom s)
            | some (.jobj r) => some (.passed r)
            | none => none })
    | none => none
  let content :=
    if msg.role = "tool" then
      match msg.content with
      | .str s => s
      | c => jsonStringifyContent c
    else contentImages.1
  { role := msg.role
    content := content
    images := if 0 < contentImages.2.length then some contentImages.2 else none
    tool_calls := tool_calls
    tool_call_id := if msg.role = "tool" then msg.tool_call_id else none }

/-- A tool definition in an OpenAI chat request. -/
structure OpenAIReqTool where
  type : Option String
  function_name : Option String
  function_description : Option String
  function_parameters : Option Int
deriving Repr, DecidableEq

/-- A tool definition forwarded to Ollama. -/
structure OllamaReqTool where
  type : String
  function_name : Option String
  function_description : Option String
  function_parameters : Option Int
deriving Repr, DecidableEq

/-- The `response_format` field of an OpenAI chat request.  The payload of
`json_schema.schema` is carried as `Int` (the gateway forwards it opaquely;
a JSON-schema object is always truthy). -/
structure RespFormat where
  type : String
  json_schema_schema : Option Int
deriving Repr, DecidableEq

/-- The `format` field of an Ollama request: `"json"` or a forwarded schema. -/
inductive OllamaFormat where
  | formatJson
  | formatSchema (schema : Int)
deriving Repr, DecidableEq

/-- An OpenAI chat-completions request (the fields `transformChatRequest`
reads). -/
structure OpenAIChatRequest where
  model : String
  messages : Option (List OpenAIReqMessage)
  stream : Option Bool
  temperature : Option Int
  top_p : Option Int
  max_tokens : Option Int
  max_completion_tokens : Option Int
  frequency_penalty : Option Int
  presence_penalty : Option Int
  seed : Option Int
  stop : Option Int
  num_ctx : Option Int
  top_k : Option Int
  repeat_penalty : Option Int
  response_format : Option RespFormat
  think : Option Bool
  keep_alive : Option Int
deriving Repr, DecidableEq

instance : Inhabited OpenAIChatRequest :=
  ⟨⟨"", none, none, none, none, none, none, none, none, none, none, none, none,
    none, none, none, none⟩⟩

/-- The `options` object built by `transformChatRequest`. -/
structure OllamaOptions where
  temperature : Option Int
  top_p : Option Int
  num_predict : Option Int
  frequency_penalty : Option Int
  presence_penalty : Option Int
  seed : Option Int
  stop : Option Int
  num_ctx : Option Int
  top_k : Option Int
  repeat_penalty : Option Int
deriving Repr, DecidableEq

/-- The options-building block of `transformChatRequest`: each field is copied
only when present; `max_completion_tokens` overwrites `max_tokens` for
`num_predict`; the whole object is attached only if at least one key was set
(`Object.keys(options).length > 0`). -/
def buildChatOptions (r : OpenAIChatRequest) : Option OllamaOptions :=
  let hasAny := r.temperature.isSome || r.top_p.isSome || r.max_tokens.isSome ||
    r.max_completion_tokens.isSome || r.frequency_penalty.isSome ||
    r.presence_penalty.isSome || r.seed.isSome || r.stop.isSome ||
    r.num_ctx.isSome || r.top_k.isSome || r.repeat_penalty.isSome
  if hasAny then
    some { temperature := r.temperature
           top_p := r.top_p
           num_predict := (r.max_completion_tokens).orElse fun _ => r.max_tokens
           frequency_penalty := r.frequency_penalty
           presence_penalty := r.presence_penalty
           seed := r.seed
           stop := r.stop
           num_ctx := r.num_ctx
           top_k := r.top_k
           repeat_penalty := r.repeat_penalty }
  else none

/-- The `format` block of `transformChatRequest`. -/
def buildFormat (rf : Option RespFormat) : Option OllamaFormat :=
  match rf with
  | some f =>
      if f.type = "json_object" then some .formatJson
      else if f.type = "json_schema" then
        match f.json_schema_schema with
        | some s => some (.formatSchema s)
        | none => none
      else none
  | none => none

/-- An Ollama `/api/chat` request. -/
structure OllamaChatReq where
  model : String
  messages : List OllamaReqMessage
  stream : Bool
  tools : Option (List OllamaReqTool)
  options : Option OllamaOptions
  format : Option OllamaFormat
  think : Option Bool
  keep_alive : Option Int
deriving Repr, DecidableEq

/-- `transformChatRequest(openaiReq)` from `transformer.js` (both versions in
the snapshot agree on this function, including `stream: openaiReq.stream !==
false`). -/
def transformChatRequest (openaiReq : OpenAIChatRequest) : OllamaChatReq :=
  { model := openaiReq.model
    messages :=
      match openaiReq.messages with
      | some msgs => msgs.map transformReqMessage
      | none => []
    stream := openaiReq.stream ≠ some false
    tools := none
    options := buildChatOptions openaiReq
    format := buildFormat openaiReq.response_format
    think := openaiReq.think
    keep_alive := openaiReq.keep_alive }

/-- An OpenAI completions request (the fields `transformCompletionsRequest`
reads). -/
structure OpenAICompletionsRequest where
  model : String
  prompt : Option String
  stream : Option Bool
  suffix : Option String
  temperature : Option Int
  top_p : Option Int
  max_tokens : Option Int
  frequency_penalty : Option Int
  presence_penalty : Option Int
  seed : Option Int
  stop : Option Int
deriving Repr, DecidableEq

instance : Inhabited OpenAICompletionsRequest :=
  ⟨⟨"", none, none, none, none, none, none, none, none, none, none⟩⟩

/-- The `options` object of an Ollama `/api/generate` request. -/
structure OllamaGenOptions where
  temperature : Option Int
  top_p : Option Int
  num_predict : Option Int
  frequency_penalty : Option Int
  presence_penalty : Option Int
  seed : Option Int
  stop : Option Int
deriving Repr, DecidableEq

/-- An Ollama `/api/generate` request. -/
structure OllamaGenerateReq where
  model : String
  prompt : String
  stream : Bool
  suffix : Option String
  options : Option OllamaGenOptions
deriving Repr, DecidableEq

/-- `transformCompletionsRequest(openaiReq)` from `transformer.js` (identical
in both snapshot versions). -/
def transformCompletionsRequest (openaiReq : OpenAICompletionsRequest) : OllamaGenerateReq :=
  let hasAny := openaiReq.temperature.isSome || openaiReq.top_p.isSome ||
    openaiReq.max_tokens.isSome || openaiReq.frequency_penalty.isSome ||
    openaiReq.presence_penalty.isSome || openaiReq.seed.isSome ||
    openaiReq.stop.isSome
  { model := openaiReq.model
    prompt := jsOrStr openaiReq.prompt ""
    stream := openaiReq.stream ≠ some false
    suffix :=
      match openaiReq.suffix with
      | some s => if s = "" then none else some s
      | none => none
    options :=
      if hasAny then
        some { temperature := openaiReq.temperature
               top_p := openaiReq.top_p
               num_predict := openaiReq.max_tokens
               frequency_penalty := openaiReq.frequency_penalty
               presence_penalty := openaiReq.presence_penalty
               seed := openaiReq.seed
               stop := openaiReq.stop }
      else none }

-- ============================================================
-- Embeddings response (current transformer.js)
-- ============================================================

/-- An Ollama `/api/embed` response (the fields `transformEmbeddingsResponse`
reads).  Vector entries are forwarded opaquely and carried as `Int`. -/
structure OllamaEmbedRes where
  model : Option String
  embeddings : Option (List (List Int))
  embedding : Option (List Int)
  prompt_eval_count : Option Nat
deriving Repr, DecidableEq

/-- One element of the `data` array of an OpenAI embeddings response. -/
structure EmbedDataItem where
  object : String
  index : Nat
  embedding : List Int
deriving Repr, DecidableEq

/-- The `usage` object of an OpenAI embeddings response. -/
structure EmbedUsage where
  prompt_tokens : Nat
  total_tokens : Nat
deriving Repr, DecidableEq

/-- An OpenAI embeddings response. -/
structure OpenAIEmbedResponse where
  object : String
  data : List EmbedDataItem
  model : String
  usage : EmbedUsage
deriving Repr, DecidableEq

/-- `transformEmbeddingsResponse(ollamaRes, model)` from the current
`transformer.js` ("BUG FIX" version): use `ollamaRes.embeddings` if it is a
non-empty array, else wrap `ollamaRes.embedding` if present (a JS array is
truthy even when empty), else the empty list.  The `emb || []` guard inside
the map is the identity here because upstream vectors are typed non-null. -/
def transformEmbeddingsResponse (ollamaRes : OllamaEmbedRes) (model : String) : OpenAIEmbedResponse :=
  let fallback : List (List Int) :=
    match ollamaRes.embedding with
    | some v => [v]
    | none => []
  let embeddings : List (List Int) :=
    match ollamaRes.embeddings with
    | some l => if 0 < l.length then l else fallback
    | none => fallback
  { object := "list"
    data := embeddings.enum.map fun p =>
      { object := "embedding", index := p.1, embedding := p.2 }
    model := jsOrStr ollamaRes.model model
    usage := { prompt_tokens := jsOrNat ollamaRes.prompt_eval_count 0
               total_tokens := jsOrNat ollamaRes.prompt_eval_count 0 } }

-- ============================================================
-- Non-streaming chat response (current transformer.js)
-- ============================================================

/-- `(ollamaRes.model || '').replace(/[^a-z0-9]/g, '')` — the sanitizer used
for `system_fingerprint`. -/
def sanitizeModel (s : String) : String :=
  String.mk (s.toList.filter fun c =>
    ('a' ≤ c && c ≤ 'z') || ('0' ≤ c && c ≤ '9'))

/-- The prompt text that `transformChatResponse` estimates over when upstream
provides no `prompt_eval_count`:
`requestMessages.map(m => typeof m.content === 'string' ? m.content : '').join(' ')`
over ALL request messages (not only `user` ones), or `''` when
`requestMessages` is absent. -/
def promptEstimateText (requestMessages : Option (List OpenAIReqMessage)) : String :=
  match requestMessages with
  | some msgs =>
      String.intercalate " " (msgs.map fun m =>
        match m.content with
        | .str s => s
        | _ => "")
  | none => ""

/-- `transformChatResponse(ollamaRes, model, requestMessages)` from the
current `transformer.js`.  `chatId` stands for the random `generateChatId()`
draw, `created` for `Math.floor(Date.now() / 1000)`, and `genToolId` for the
random tool-call id generator. -/
def transformChatResponse (genToolId : Nat → String) (chatId : String) (created : Nat)
    (ollamaRes : OllamaChunk) (model : String)
    (requestMessages : Option (List OpenAIReqMessage)) : OpenAIChatResponse :=
  let message := ollamaRes.message.getD default
  let content := message.content.getD ""
  let promptTokens :=
    jsOrNat ollamaRes.prompt_eval_count (estimateTokens (promptEstimateText requestMessages))
  let completionTokens := jsOrNat ollamaRes.eval_count (estimateTokens content)
  let toolCallsOut : Option (List OpenAIToolCallOut) :=
    match message.tool_calls with
    | some tcs => some (renderToolCalls genToolId tcs)
    | none => none
  let finishReason :=
    match message.tool_calls with
    | some _ => "tool_calls"
    | none => mapFinishReason ollamaRes.done_reason message.tool_calls
  { id := chatId
    object := "chat.completion"
    created := created
    model := jsOrStr ollamaRes.model model
    choices := [{
      index := 0
      message := { role := jsOrStr message.role "assistant"
                   content := content
                   tool_calls := toolCallsOut
                   reasoning_content :=
                     match message.thinking with
                     | some t => if t = "" then none else some t
                     | none => none }
      finish_reason := finishReason }]
    usage := { prompt_tokens := promptTokens
               completion_tokens := completionTokens
               total_tokens := promptTokens + completionTokens }
    system_fingerprint := "fp_ollama_" ++ sanitizeModel (ollamaRes.model.getD "") }

-- ============================================================
-- The chat SSE relay loop (src/routes/openai.js, POST /v1/chat/completions)
-- ============================================================

/-- `ollamaChunk.message?.content` truthiness — the guard that increments the
per-stream `tokenCount` in the chat stream handler. -/
def chunkHasContent (c : OllamaChunk) : Bool :=
  match c.message with
  | some m => match m.content with | some s => s ≠ "" | none => false
  | none => false

/-- The per-line body of the chat stream handler, iterated over the parsed
upstream chunks: `if (ollamaChunk.message?.content) tokenCount++;` then
`transformStreamChunk(ollamaChunk, chatId, created, model, isFirstChunk,
tokenCount)`, with `isFirstChunk` cleared after the first line.  `genToolId
pos` is the id generator for the chunk at position `pos`. -/
def runChatStreamAux (genToolId : Nat → Nat → String) (chatId : String)
    (created : Nat) (model : String) :
    List OllamaChunk → Nat → Bool → Nat → List OpenAIChunkOut
  | [], _, _, _ => []
  | c :: rest, pos, isFirstChunk, tokenCount =>
      let tokenCount' := if chunkHasContent c then tokenCount + 1 else tokenCount
      transformStreamChunk (genToolId pos) c chatId created model isFirstChunk tokenCount' ::
        runChatStreamAux genToolId chatId created model rest (pos + 1) false tokenCount'

/-- The OpenAI chunks written by the chat stream handler for a given list of
parsed upstream lines. -/
def runChatStream (genToolId : Nat → Nat → String) (chatId : String)
    (created : Nat) (model : String) (chunks : List OllamaChunk) : List OpenAIChunkOut :=
  runChatStreamAux genToolId chatId created model chunks 0 true 0

-- ============================================================
-- C4: embeddings response selection
-- ============================================================

/-- **C4.** The embeddings response translation selects `upstream.embeddings`
when it is a non-empty array; otherwise, when `upstream.embedding` exists, it
wraps it into a one-element sequence; otherwise it produces an empty sequence.
In particular `transformEmbeddingsResponse {}` has `data = []` (not a
one-element list), `transformEmbeddingsResponse {embedding: v}` has one data
item carrying `v`, and `transformEmbeddingsResponse {embeddings: [v1, v2]}`
has two data items. -/
theorem transformEmbeddingsResponse_selection :
    (∀ (m : String) (mdl : Option String) (pec : Option Nat),
      (transformEmbeddingsResponse ⟨mdl, none, none, pec⟩ m).data = []) ∧
    (∀ (m : String) (mdl : Option String) (pec : Option Nat) (v : List Int),
      (transformEmbeddingsResponse ⟨mdl, none, some v, pec⟩ m).data =
        [{ object := "embedding", index := 0, embedding := v }]) ∧
    (∀ (m : String) (mdl : Option String) (pec : Option Nat) (v1 v2 : List Int),
      (transformEmbeddingsResponse ⟨mdl, some [v1, v2], none, pec⟩ m).data =
        [{ object := "embedding", index := 0, embedding := v1 },
         { object := "embedding", index := 1, embedding := v2 }]) ∧
    (∀ (m : String) (r : OllamaEmbedRes),
      (transformEmbeddingsResponse r m).data.map EmbedDataItem.embedding =
        match r.embeddings with
        | some l =>
            if l = [] then
              (match r.embedding with | some v => [v] | none => [])
            else l
        | none => match r.embedding with | some v => [v] | none => []) := by
  refine ⟨?_, ?_, ?_, ?_⟩
  · intro m mdl pec
    simp [transformEmbeddingsResponse]
  · intro m mdl pec v
    simp [transformEmbeddingsResponse, List.enum]
  · intro m mdl pec v1 v2
    simp [transformEmbeddingsResponse, List.enum, List.enumFrom]
  · intro m r
    rcases r with ⟨mdl, embs, emb, pec⟩
    rcases embs with _ | l
    · rcases emb with _ | v <;>
        simp [transformEmbeddingsResponse, List.enum]
    · rcases l with _ | ⟨x, xs⟩
      · rcases emb with _ | v <;>
          simp [transformEmbeddingsResponse, List.enum]
      · simp only [transformEmbeddingsResponse]
        simp only [List.map_map]
        have hc : (EmbedDataItem.embedding ∘ fun p : Nat × List Int =>
            ({ object := "embedding", index := p.1, embedding := p.2 } : EmbedDataItem)) =
            Prod.snd := rfl
        simp [hc, List.enum_map_snd]

-- ============================================================
-- C2: the default of `stream`
-- ============================================================

/-- **C2 (code bug).** The code computes `stream: openaiReq.stream !== false`,
so a chat or completions request WITHOUT a `stream` field is translated with
`stream == true`, although the repository's own unit tests
(`test/unit.test.js`: "OpenAI spec: stream defaults to false when not
specified") assert `false`.  Explicit `stream: false` and `stream: true` are
preserved. -/
theorem transformChatRequest_stream_absent_is_true :
    (transformChatRequest { (default : OpenAIChatRequest) with
        model := "llama3"
        messages := some [{ role := "user", content := .str "Hello",
                            tool_calls := none, tool_call_id := none }] }).stream = true ∧
    (transformCompletionsRequest { (default : OpenAICompletionsRequest) with
        model := "llama3", prompt := some "Once upon a time" }).stream = true ∧
    (transformChatRequest { (default : OpenAIChatRequest) with
        model := "llama3", stream := some false }).stream = false ∧
    (transformChatRequest { (default : OpenAIChatRequest) with
        model := "llama3", stream := some true }).stream = true ∧
    (transformCompletionsRequest { (default : OpenAICompletionsRequest) with
        model := "llama3", stream := some false }).stream = false ∧
    (transformCompletionsRequest { (default : OpenAICompletionsRequest) with
        model := "llama3", stream := some true }).stream = true := by
  refine ⟨?_, ?_, ?_, ?_, ?_, ?_⟩ <;> decide

-- ============================================================
-- C1: usage attached to the final stream chunk
-- ============================================================

lemma runChatStreamAux_get? (g : Nat → Nat → String) (chatId : String)
    (created : Nat) (model : String) :
    ∀ (chunks : List OllamaChunk) (pos : Nat) (first : Bool) (cnt : Nat) (i : Nat),
      (runChatStreamAux g chatId created model chunks pos first cnt).get? i =
        (chunks.get? i).map fun c =>
          transformStreamChunk (g (pos + i)) c chatId created model
            (first && decide (i = 0))
            (cnt + (chunks.take (i + 1)).countP chunkHasContent) := by
  intro chunks
  induction chunks with
  | nil => intro pos first cnt i; rfl
  | cons c rest ih =>
    intro pos first cnt i
    match i with
    | 0 =>
      simp only [runChatStreamAux, List.get?, List.take, List.countP_cons,
        List.countP_nil, Option.map_some']
      by_cases hc : chunkHasContent c <;> simp [hc]
    | Nat.succ j =>
      simp only [runChatStreamAux, List.get?]
      rw [ih (pos + 1) false]
      cases hr : rest.get? j with
      | none => rfl
      | some d =>
        simp only [Option.map_some', Option.some.injEq]
        have hpos : pos + 1 + j = pos + (j + 1) := by omega
        have hcnt :
            (if chunkHasContent c then cnt + 1 else cnt) +
              (rest.take (j + 1)).countP chunkHasContent =
            cnt + ((c :: rest).take (j + 1 + 1)).countP chunkHasContent := by
          simp only [List.take, List.countP_cons]
          cases hc : chunkHasContent c
          · simp [hc]
          · simp [hc]
            omega
        rw [hpos, hcnt]
        simp

/-- Whether an emitted OpenAI chunk carries a `delta.content`. -/
def outHasDeltaContent (o : OpenAIChunkOut) : Bool :=
  match o.choices with
  | ch :: _ => ch.delta.content.isSome
  | [] => false

lemma outHasDeltaContent_transformStreamChunk (gen : Nat → String) (c : OllamaChunk)
    (chatId : String) (created : Nat) (model : String) (first : Bool) (cnt : Nat) :
    outHasDeltaContent (transformStreamChunk gen c chatId created model first cnt) =
      chunkHasContent c := by
  rcases c with ⟨mdl, msg, done, dr, pec, ec⟩
  cases msg with
  | none => simp [transformStreamChunk, outHasDeltaContent, chunkHasContent, default]
  | some m =>
    cases hmc : m.content with
    | none => simp [transformStreamChunk, outHasDeltaContent, chunkHasContent, hmc]
    | some s =>
      by_cases hs : s = "" <;>
        simp [transformStreamChunk, outHasDeltaContent, chunkHasContent, hmc, hs]

lemma runChatStreamAux_countP (g : Nat → Nat → String) (chatId : String)
    (created : Nat) (model : String) :
    ∀ (chunks : List OllamaChunk) (pos : Nat) (first : Bool) (cnt : Nat),
      (runChatStreamAux g chatId created model chunks pos first cnt).countP outHasDeltaContent =
        chunks.countP chunkHasContent := by
  intro chunks
  induction chunks with
  | nil => intro pos first cnt; rfl
  | cons c rest ih =>
    intro pos first cnt
    simp only [runChatStreamAux, List.countP_cons,
      outHasDeltaContent_transformStreamChunk, ih]

/-- **C1 (amended).**  For every Ollama streaming chunk with `done == true`,
the chat stream handler attaches a usage object with
`prompt_tokens = prompt_eval_count` when present and nonzero and `0`
otherwise, and `completion_tokens = eval_count` when present and nonzero and
otherwise the per-stream count of non-empty `message.content` chunks
accumulated so far (both fallbacks use JS `||`, so a present-but-zero
upstream counter also falls back); `total_tokens` is their sum.  For a stream
whose chunks carry no counters at all, the done chunk's usage is
`{prompt_tokens: 0, completion_tokens: #non-empty content chunks}` — and that
counter equals the number of emitted chunks carrying a `delta.content`. -/
theorem transformStreamChunk_done_usage (g : Nat → Nat → String) (chatId : String)
    (created : Nat) (model : String) (chunks : List OllamaChunk) (i : Nat)
    (c : OllamaChunk) (hc : chunks.get? i = some c) (hdone : c.done = true) :
    ((runChatStream g chatId created model chunks).get? i).map OpenAIChunkOut.usage =
      some (some
        { prompt_tokens := jsOrNat c.prompt_eval_count 0
          completion_tokens :=
            jsOrNat c.eval_count ((chunks.take (i + 1)).countP chunkHasContent)
          total_tokens :=
            jsOrNat c.prompt_eval_count 0 +
              jsOrNat c.eval_count ((chunks.take (i + 1)).countP chunkHasContent) }) ∧
    ((∀ d ∈ chunks, d.prompt_eval_count = none ∧ d.eval_count = none) →
      ((runChatStream g chatId created model chunks).get? i).map OpenAIChunkOut.usage =
        some (some
          { prompt_tokens := 0
            completion_tokens := (chunks.take (i + 1)).countP chunkHasContent
            total_tokens := (chunks.take (i + 1)).countP chunkHasContent })) ∧
    (runChatStream g chatId created model chunks).countP outHasDeltaContent =
      chunks.countP chunkHasContent := by
  have hmain :
      ((runChatStream g chatId created model chunks).get? i).map OpenAIChunkOut.usage =
        some (some
          { prompt_tokens := jsOrNat c.prompt_eval_count 0
            completion_tokens :=
              jsOrNat c.eval_count ((chunks.take (i + 1)).countP chunkHasContent)
            total_tokens :=
              jsOrNat c.prompt_eval_count 0 +
                jsOrNat c.eval_count ((chunks.take (i + 1)).countP chunkHasContent) }) := by
    rw [runChatStream, runChatStreamAux_get? g chatId created model chunks 0 true, hc]
    simp only [Option.map_some']
    rw [transformStreamChunk]
    simp [hdone]
  refine ⟨hmain, ?_, ?_⟩
  · intro hnone
    have hmem : c ∈ chunks := List.get?_mem hc
    have hcpec : c.prompt_eval_count = none := (hnone c hmem).1
    have hcec : c.eval_count = none := (hnone c hmem).2
    rw [hmain, hcpec, hcec]
    simp [jsOrNat]
  · exact runChatStreamAux_countP g chatId created model chunks 0 true 0

/-- A two-line stream whose done chunk carries `eval_count: 0`. -/
def c1CounterChunks : List OllamaChunk :=
  [{ model := none
     message := some { role := some "assistant", content := some "hi",
                       thinking := none, tool_calls := none }
     done := false, done_reason := none
     prompt_eval_count := none, eval_count := none },
   { model := none, message := none
     done := true, done_reason := some "stop"
     prompt_eval_count := none, eval_count := some 0 }]

/-- **C1, counterexample to the claim as stated.**  The done chunk's
`eval_count` is present (with value `0`), so the claim prescribes
`completion_tokens == eval_count == 0`; the code computes
`eval_count || tokenCount` (JS `||`, for which `0` is falsy) and emits
`completion_tokens == 1`, the number of non-empty content chunks seen. -/
theorem transformStreamChunk_eval_count_zero_falls_back :
    ((runChatStream (fun _ _ => "call_x") "chatcmpl-1" 0 "m" c1CounterChunks).get? 1).map
        OpenAIChunkOut.usage =
      some (some { prompt_tokens := 0, completion_tokens := 1, total_tokens := 1 }) ∧
    (c1CounterChunks.get? 1).map OllamaChunk.eval_count = some (some 0) := by
  constructor
  · decide
  · decide

/-- The stream of end-to-end scenario 4 of the spec: three chunks with content
`"h"`, then a done chunk carrying no counters. -/
def c1WitnessChunks : List OllamaChunk :=
  [{ model := none
     message := some { role := some "assistant", content := some "h",
                       thinking := none, tool_calls := none }
     done := false, done_reason := none
     prompt_eval_count := none, eval_count := none },
   { model := none
     message := some { role := none, content := some "h",
                       thinking := none, tool_calls := none }
     done := false, done_reason := none
     prompt_eval_count := none, eval_count := none },
   { model := none
     message := some { role := none, content := some "h",
                       thinking := none, tool_calls := none }
     done := false, done_reason := none
     prompt_eval_count := none, eval_count := none },
   { model := none, message := none
     done := true, done_reason := some "stop"
     prompt_eval_count := none, eval_count := none }]

/-- The done chunk of `c1WitnessChunks`. -/
def c1DoneChunk : OllamaChunk :=
  { model := none, message := none
    done := true, done_reason := some "stop"
    prompt_eval_count := none, eval_count := none }

/-- Witness for `transformStreamChunk_done_usage`: on a 3-content-chunk stream
with no upstream counters, the final usage is `{0, 3, 3}`. -/
theorem transformStreamChunk_done_usage_witness :
    ((runChatStream (fun _ _ => "call_x") "chatcmpl-1" 5 "m" c1WitnessChunks).get? 3).map
        OpenAIChunkOut.usage =
      some (some { prompt_tokens := 0, completion_tokens := 3, total_tokens := 3 }) := by
  have h := (transformStreamChunk_done_usage (fun _ _ => "call_x") "chatcmpl-1" 5 "m"
    c1WitnessChunks 3 c1DoneChunk (by decide) (by decide)).2.1 (by decide)
  rw [h]
  decide

-- ============================================================
-- C5: usage of the non-streaming chat response
-- ============================================================

lemma estimateTokens_div_eq_ceil (c o : Nat) :
    (((8 * c + 3 * o + 11) / 12 : Nat) : ℤ) = ⌈(c : ℚ) / 1.5 + (o : ℚ) / 4⌉ := by
  have hval : (c : ℚ) / 1.5 + (o : ℚ) / 4 = ((8 * c + 3 * o : ℕ) : ℚ) / 12 := by
    rw [show (1.5 : ℚ) = 3 / 2 by norm_num]
    push_cast
    ring
  rw [hval]
  set q : ℕ := 8 * c + 3 * o with hq
  set n : ℕ := (q + 11) / 12 with hn
  have h1 : q ≤ 12 * n := by omega
  have h2 : 12 * n ≤ q + 11 := by omega
  have h12 : (0 : ℚ) < 12 := by norm_num
  have h1' : (q : ℚ) ≤ 12 * (n : ℚ) := by exact_mod_cast h1
  have h2' : 12 * (n : ℚ) ≤ (q : ℚ) + 11 := by exact_mod_cast h2
  symm
  rw [Int.ceil_eq_iff]
  constructor
  · push_cast
    rw [lt_div_iff₀ h12]
    linarith
  · push_cast
    rw [div_le_iff₀ h12]
    linarith

/-- **C5 (amended).**  The usage of the translated non-streaming chat
response: `prompt_tokens` is `prompt_eval_count` when present and nonzero, and
otherwise the estimate applied to the space-joined string contents of ALL
request messages (not only the `user` ones; non-string contents contribute
`''`); `completion_tokens` is `eval_count` when present and nonzero, and
otherwise the estimate applied to `message.content`; `total_tokens` is their
sum.  The estimate counts characters in the claimed CJK ranges as `len_cjk`,
the rest as `len_other`, and returns `⌈len_cjk/1.5 + len_other/4⌉` (exact
rational ceiling, `0` for the empty string). -/
theorem transformChatResponse_usage (g : Nat → String) (chatId : String)
    (created : Nat) (ollamaRes : OllamaChunk) (model : String)
    (requestMessages : Option (List OpenAIReqMessage)) :
    ((transformChatResponse g chatId created ollamaRes model requestMessages).usage =
      { prompt_tokens :=
          jsOrNat ollamaRes.prompt_eval_count
            (estimateTokens (promptEstimateText requestMessages))
        completion_tokens :=
          jsOrNat ollamaRes.eval_count
            (estimateTokens ((ollamaRes.message.getD default).content.getD ""))
        total_tokens :=
          jsOrNat ollamaRes.prompt_eval_count
              (estimateTokens (promptEstimateText requestMessages)) +
            jsOrNat ollamaRes.eval_count
              (estimateTokens ((ollamaRes.message.getD default).content.getD "")) }) ∧
    (∀ text : String, text ≠ "" →
      (estimateTokens text : ℤ) =
        ⌈(text.toList.countP isCJKChar : ℚ) / 1.5 +
          ((text.length - text.toList.countP isCJKChar : ℕ) : ℚ) / 4⌉) := by
  constructor
  · rfl
  · intro text htext
    rw [estimateTokens, if_neg htext]
    exact estimateTokens_div_eq_ceil _ _

/-- The request-message list of the C5 counterexample: a single (non-`user`)
assistant message with string content `"abcd"`. -/
def c5Msgs : List OpenAIReqMessage :=
  [{ role := "assistant", content := .str "abcd", tool_calls := none, tool_call_id := none }]

/-- The concatenation of the texts of the `user` messages — the prompt text
the claim prescribes for the estimate fallback (spec words, for comparison
with the source behaviour). -/
def specUserMessageTexts (msgs : List OpenAIReqMessage) : String :=
  String.join ((msgs.filter fun m => m.role = "user").map fun m =>
    match m.content with
    | .str s => s
    | _ => "")

/-- **C5, counterexample to the claim as stated.**  With no upstream
`prompt_eval_count` and a request containing only an assistant message
`"abcd"`, the code estimates over ALL messages and yields `prompt_tokens = 1`,
while the claim's "concatenation of the user message texts" is empty and
estimates to `0`. -/
theorem transformChatResponse_prompt_estimates_all_messages :
    (transformChatResponse (fun _ => "call_x") "chatcmpl-1" 0
        { model := none
          message := some { role := some "assistant", content := some "",
                            thinking := none, tool_calls := none }
          done := true, done_reason := some "stop"
          prompt_eval_count := none, eval_count := none }
        "m" (some c5Msgs)).usage.prompt_tokens = 1 ∧
    estimateTokens (specUserMessageTexts c5Msgs) = 0 := by
  constructor
  · decide
  · decide

/-- The upstream response of the C5 witness. -/
def c5WitnessRes : OllamaChunk :=
  { model := some "llama3"
    message := some { role := some "assistant", content := some "Short reply",
                      thinking := none, tool_calls := none }
    done := true, done_reason := some "stop"
    prompt_eval_count := none, eval_count := none }

/-- The request messages of the C5 witness. -/
def c5WitnessMsgs : List OpenAIReqMessage :=
  [{ role := "user", content := .str "Hello wo", tool_calls := none, tool_call_id := none }]

/-- Witness for `transformChatResponse_usage`: `"Hello wo"` (8 plain chars)
estimates to 2, `"Short reply"` (11 plain chars) to 3. -/
theorem transformChatResponse_usage_witness :
    ((transformChatResponse (fun _ => "call_x") "chatcmpl-1" 0 c5WitnessRes "llama3"
        (some c5WitnessMsgs)).usage =
      { prompt_tokens := 2, completion_tokens := 3, total_tokens := 5 }) ∧
    (estimateTokens "abcd" : ℤ) =
      ⌈("abcd".toList.countP isCJKChar : ℚ) / 1.5 +
        (("abcd".length - "abcd".toList.countP isCJKChar : ℕ) : ℚ) / 4⌉ := by
  constructor
  · rw [(transformChatResponse_usage (fun _ => "call_x") "chatcmpl-1" 0 c5WitnessRes
      "llama3" (some c5WitnessMsgs)).1]
    decide
  · exact (transformChatResponse_usage (fun _ => "call_x") "chatcmpl-1" 0 c5WitnessRes
      "llama3" (some c5WitnessMsgs)).2 "abcd" (by decide)

-- ============================================================
-- KeyStore (src/core/keyStore.js)
-- ============================================================

/-- A backend credential as produced by `parseKeyString` and stored in
`keys.json`. -/
structure KeyCred where
  id : String
  key : String
  baseUrl : String
  name : String
  enabled : Bool
  healthy : Bool
  lastCheck : Option String
  lastUsed : Option String
  lastError : Option String
  addedAt : String
  totalRequests : Nat
  failedRequests : Nat
  tags : List String
deriving Repr, DecidableEq

instance : Inhabited KeyCred :=
  ⟨⟨"", "", "", "", true, true, none, none, none, "", 0, 0, []⟩⟩

/-- The mutable state of the `KeyStore` singleton that `getNextKey`, `addKey`
and friends read and write: the credential list and the round-robin cursor.
(The `_poolCache` of the source is invalidated by the `_save()` call at the
end of every `getNextKey`, so across consecutive `getNextKey` calls the pool
is recomputed from `keys` each time; the embedding recomputes it directly.) -/
structure KeyStoreState where
  keys : List KeyCred
  currentIndex : Nat
deriving Repr, DecidableEq

/-- The selection pool of `getNextKey`: enabled-and-healthy credentials,
falling back to all enabled ones when that is empty. -/
def keyPool (keys : List KeyCred) : List KeyCred :=
  let enabledHealthy := keys.filter fun k => k.enabled && k.healthy
  if 0 < enabledHealthy.length then enabledHealthy
  else keys.filter fun k => k.enabled

/-- `KeyStore.getNextKey()`:  round-robin over the pool, with the cursor
clamped to `0` when it is out of bounds (`currentIndex < 0` cannot arise with
a `Nat` cursor) and post-incremented modulo the pool size. -/
def getNextKey (s : KeyStoreState) : Option KeyCred × KeyStoreState :=
  if s.keys.length = 0 then (none, s)
  else
    let pool := keyPool s.keys
    if pool.length = 0 then (none, s)
    else
      let idx := if pool.length ≤ s.currentIndex then 0 else s.currentIndex
      (some (pool.getD idx default),
       { s with currentIndex := (idx + 1) % pool.length })

/-- `m` consecutive `getNextKey` calls (with no other store operation in
between), returning the list of picks and the final state. -/
def runGetNextKeys : Nat → KeyStoreState → List (Option KeyCred) × KeyStoreState
  | 0, s => ([], s)
  | Nat.succ m, s =>
      let r := getNextKey s
      let rest := runGetNextKeys m r.2
      (r.1 :: rest.1, rest.2)

lemma getNextKey_keys (s : KeyStoreState) : (getNextKey s).2.keys = s.keys := by
  unfold getNextKey
  by_cases h0 : s.keys.length = 0
  · simp [h0]
  · by_cases hp : (keyPool s.keys).length = 0 <;> simp [h0, hp]

lemma runGetNextKeys_keys : ∀ (m : Nat) (s : KeyStoreState),
    (runGetNextKeys m s).2.keys = s.keys
  | 0, _ => rfl
  | Nat.succ m, s => by
      rw [runGetNextKeys]
      rw [runGetNextKeys_keys m]
      exact getNextKey_keys s

lemma keyPool_of_all_enabled_healthy (keys : List KeyCred)
    (hall : ∀ k ∈ keys, k.enabled = true ∧ k.healthy = true) :
    keyPool keys = keys := by
  have hfilter : keys.filter (fun k => k.enabled && k.healthy) = keys := by
    apply List.filter_eq_self.mpr
    intro k hk
    simp [(hall k hk).1, (hall k hk).2]
  unfold keyPool
  rw [hfilter]
  cases keys with
  | nil => simp
  | cons a l => simp

lemma runGetNextKeys_rotation (keys : List KeyCred)
    (hall : ∀ k ∈ keys, k.enabled = true ∧ k.healthy = true) (hne : keys ≠ []) :
    ∀ (m cur : Nat),
      (runGetNextKeys m ⟨keys, cur⟩).1 =
        (List.range m).map fun j =>
          some (keys.getD
            (((if keys.length ≤ cur then 0 else cur) + j) % keys.length) default) := by
  have hpool := keyPool_of_all_enabled_healthy keys hall
  have hpos : 0 < keys.length := List.length_pos.mpr hne
  have h0 : ¬ keys.length = 0 := by omega
  intro m
  induction m with
  | zero => intro cur; rfl
  | succ m ih =>
    intro cur
    have hstart : (if keys.length ≤ cur then 0 else cur) < keys.length := by
      by_cases h : keys.length ≤ cur <;> simp [h] <;> omega
    have hstep : getNextKey ⟨keys, cur⟩ =
        (some (keys.getD (if keys.length ≤ cur then 0 else cur) default),
         ⟨keys, ((if keys.length ≤ cur then 0 else cur) + 1) % keys.length⟩) := by
      simp [getNextKey, hpool, h0]
    rw [runGetNextKeys, hstep]
    have hcur' : ((if keys.length ≤ cur then 0 else cur) + 1) % keys.length < keys.length :=
      Nat.mod_lt _ (by omega)
    rw [ih]
    have hclamp :
        (if keys.length ≤ ((if keys.length ≤ cur then 0 else cur) + 1) % keys.length then 0
         else ((if keys.length ≤ cur then 0 else cur) + 1) % keys.length) =
          ((if keys.length ≤ cur then 0 else cur) + 1) % keys.length :=
      if_neg (not_le.mpr hcur')
    rw [hclamp]
    rw [List.range_succ_eq_map]
    simp only [List.map_cons, List.map_map]
    congr 1
    · rw [Nat.add_zero, Nat.mod_eq_of_lt hstart]
    · have hfun :
          (fun j => some (keys.getD
              ((((if keys.length ≤ cur then 0 else cur) + 1) % keys.length + j) % keys.length)
              default)) =
          ((fun j => some (keys.getD
              (((if keys.length ≤ cur then 0 else cur) + j) % keys.length) default)) ∘
            Nat.succ) := by
        funext j
        simp only [Function.comp]
        rw [Nat.mod_add_mod]
        have harg : (if keys.length ≤ cur then 0 else cur) + 1 + j =
            (if keys.length ≤ cur then 0 else cur) + Nat.succ j := by omega
        rw [harg]
      rw [hfun]

/-- **C6.**  With a stable pool of `n ≥ 2` enabled and healthy credentials and
no failures recorded in between, `n` consecutive `getNextKey` calls return
every credential of the pool exactly once (the returned picks are a
permutation of the pool), hence every credential is picked at least once in
any window of `|pool|` consecutive calls; and the calls themselves leave the
credential list unchanged. -/
theorem getNextKey_round_robin (s : KeyStoreState)
    (hall : ∀ k ∈ s.keys, k.enabled = true ∧ k.healthy = true)
    (hn : 2 ≤ s.keys.length) :
    ((runGetNextKeys s.keys.length s).1).Perm (s.keys.map some) ∧
    (∀ k ∈ s.keys, some k ∈ (runGetNextKeys s.keys.length s).1) ∧
    (runGetNextKeys s.keys.length s).2.keys = s.keys := by
  obtain ⟨keys, cur⟩ := s
  have hn' : 2 ≤ keys.length := hn
  have hne : keys ≠ [] := by
    intro h
    rw [h] at hn'
    simp at hn'
  have hpos : 0 < keys.length := by omega
  have hrot := runGetNextKeys_rotation keys hall hne keys.length cur
  have hlist :
      ((List.range keys.length).map fun j =>
        some (keys.getD
          (((if keys.length ≤ cur then 0 else cur) + j) % keys.length) default)) =
      (keys.rotate (if keys.length ≤ cur then 0 else cur)).map some := by
    apply List.ext_get
    · simp
    · intro i h1 h2
      rw [List.get_map, List.get_map, List.get_range]
      rw [List.get_rotate]
      have hlt : ((if keys.length ≤ cur then 0 else cur) + i) % keys.length < keys.length :=
        Nat.mod_lt _ (by omega)
      rw [List.getD_eq_get _ _ hlt]
      apply congrArg
      apply congrArg
      apply Fin.ext
      simp only []
      rw [Nat.add_comm]
  have hperm : ((runGetNextKeys keys.length ⟨keys, cur⟩).1).Perm (keys.map some) := by
    rw [hrot, hlist]
    exact (List.rotate_perm keys _).map some
  refine ⟨hperm, ?_, runGetNextKeys_keys _ _⟩
  intro k hk
  have hmem : some k ∈ keys.map some := List.mem_map_of_mem some hk
  exact hperm.mem_iff.mpr hmem

/-- First witness credential for C6. -/
def c6A : KeyCred :=
  { id := "id-a", key := "sk-aaaa", baseUrl := "https://ollama.com/api", name := "a"
    enabled := true, healthy := true, lastCheck := none, lastUsed := none
    lastError := none, addedAt := "", totalRequests := 0, failedRequests := 0, tags := [] }

/-- Second witness credential for C6. -/
def c6B : KeyCred :=
  { id := "id-b", key := "sk-bbbb", baseUrl := "http://localhost:11434", name := "b"
    enabled := true, healthy := true, lastCheck := none, lastUsed := none
    lastError := none, addedAt := "", totalRequests := 0, failedRequests := 0, tags := [] }

/-- Witness for `getNextKey_round_robin`: a 2-credential pool with an
out-of-bounds cursor still yields each credential once in 2 calls. -/
theorem getNextKey_round_robin_witness :
    some c6B ∈ (runGetNextKeys 2 ⟨[c6A, c6B], 5⟩).1 := by
  have h := (getNextKey_round_robin ⟨[c6A, c6B], 5⟩ (by decide) (by decide)).2.1 c6B (by decide)
  simpa using h

-- ============================================================
-- Kernel-computable string helpers (JS string semantics)
-- ============================================================

/-- Split a character list at every occurrence of `c` (JS
`s.split(c)` for a single-character separator).  Always returns at least one
(possibly empty) part. -/
def splitOnChar (c : Char) : List Char → List (List Char)
  | [] => [[]]
  | x :: xs =>
      match splitOnChar c xs with
      | [] => [[x]]
      | h :: t => if x = c then [] :: h :: t else (x :: h) :: t

/-- JS `s.split(sep)` for a one-character separator. -/
def jsSplit (s : String) (sep : Char) : List String :=
  (splitOnChar sep s.data).map String.mk

/-- JS `s.startsWith(t)`. -/
def strStartsWith (s t : String) : Bool :=
  t.data.isPrefixOf s.data

/-- JS `s.endsWith(t)`. -/
def strEndsWith (s t : String) : Bool :=
  t.data.isSuffixOf s.data

/-- JS `s.includes(sub)` for a one-character `sub`. -/
def strContainsChar (s : String) (c : Char) : Bool :=
  s.data.contains c

/-- Structural infix test on character lists. -/
def listIsInfix (needle : List Char) : List Char → Bool
  | [] => needle.isEmpty
  | x :: xs => needle.isPrefixOf (x :: xs) || listIsInfix needle xs

/-- JS `s.includes(sub)`. -/
def strContainsSub (s sub : String) : Bool :=
  listIsInfix sub.data s.data

/-- JS `parts.join(sep)`. -/
def strJoin (sep : String) (parts : List String) : String :=
  String.mk (List.intercalate sep.data (parts.map String.data))

/-- JS `s.trim()` (both ends, JS whitespace ≈ `Char.isWhitespace`). -/
def jsTrim (s : String) : String :=
  String.mk (((s.data.dropWhile Char.isWhitespace).reverse.dropWhile
    Char.isWhitespace).reverse)

/-- First `n` characters (JS `s.substring(0, n)`). -/
def strTake (s : String) (n : Nat) : String :=
  String.mk (s.data.take n)

/-- All but the last `n` characters. -/
def strDropRight (s : String) (n : Nat) : String :=
  String.mk (s.data.take (s.data.length - n))

/-- Last `n` characters (JS `s.substring(s.length - n)`). -/
def strTakeRight (s : String) (n : Nat) : String :=
  String.mk (s.data.drop (s.data.length - n))

/-- JS `s.replace(/\/+$/, '')` — strip all trailing slashes. -/
def stripTrailingSlashes (s : String) : String :=
  String.mk ((s.data.reverse.dropWhile fun c => c = '/').reverse)

/-- JS `s.replace(/\/$/, '')` — strip one trailing slash. -/
def stripOneTrailingSlash (s : String) : String :=
  if strEndsWith s "/" then strDropRight s 1 else s

/-- JS `s.replace(/\/api\/?$/, '')` — strip a trailing `/api` or `/api/`. -/
def stripApiSuffix (s : String) : String :=
  if strEndsWith s "/api/" then strDropRight s 5
  else if strEndsWith s "/api" then strDropRight s 4
  else s

/-- The character class `[a-zA-Z0-9_.-]` of the New-API key format. -/
def isKeyChar (c : Char) : Bool :=
  ('a' ≤ c && c ≤ 'z') || ('A' ≤ c && c ≤ 'Z') || ('0' ≤ c && c ≤ '9') ||
  c = '_' || c = '.' || c = '-'

-- ============================================================
-- C10: addKey duplicate handling (src/core/keyStore.js)
-- ============================================================

/-- `KeyStore.parseKeyString(raw, defaultBaseUrl)`.  `freshId` stands for the
random `crypto.randomUUID()` draw and `nowIso` for
`new Date().toISOString()`. -/
def parseKeyString (raw : String) (defaultBaseUrl : Option String)
    (freshId nowIso : String) : Option KeyCred :=
  let raw := jsTrim raw
  if raw = "" then none
  else
    let dflt := jsOrStr defaultBaseUrl "https://ollama.com/api"
    -- format dispatch: URL|key / key|URL, URL#key, URL/key (New API), bare key
    let keyBase : String × String :=
      if strContainsChar raw '|' then
        let parts := jsSplit raw '|'
        let p0 := parts.headD ""
        if strStartsWith p0 "http" then
          (jsTrim (strJoin "|" parts.tail),
           stripTrailingSlashes (jsTrim p0))
        else
          (jsTrim p0,
           stripTrailingSlashes (jsTrim (strJoin "|" parts.tail)))
      else if strContainsChar raw '#' && strStartsWith raw "http" then
        let parts := jsSplit raw '#'
        (jsTrim ((parts.getLast?).getD ""),
         stripTrailingSlashes (jsTrim (strJoin "#" parts.dropLast)))
      else if strStartsWith raw "http" &&
          (let segs := jsSplit raw '/'
           let last := (segs.getLast?).getD ""
           1 < segs.length && 20 ≤ last.length && last.data.all isKeyChar) then
        let segs := jsSplit raw '/'
        (jsTrim ((segs.getLast?).getD ""),
         stripTrailingSlashes (jsTrim (strJoin "/" segs.dropLast)))
      else
        (raw, dflt)
    let key := keyBase.1
    let baseUrl0 := stripApiSuffix keyBase.2
    let baseUrl :=
      if strEndsWith baseUrl0 "/api" then baseUrl0
      else if strContainsSub baseUrl0 "ollama.com" then
        stripOneTrailingSlash baseUrl0 ++ "/api"
      else baseUrl0
    let name :=
      if 8 < key.length then strTake key 4 ++ "..." ++ strTakeRight key 4 else key
    some { id := freshId
           key := key
           baseUrl := baseUrl
           name := name
           enabled := true
           healthy := true
           lastCheck := none
           lastUsed := none
           lastError := none
           addedAt := nowIso
           totalRequests := 0
           failedRequests := 0
           tags := [] }

/-- The value `addKey` returns on success: the credential, with
`duplicate: true` when an existing credential with the same `(key, baseUrl)`
pair was returned instead of adding a new one. -/
structure AddKeyResult where
  cred : KeyCred
  duplicate : Bool
deriving Repr, DecidableEq

/-- `KeyStore.addKey(rawKey, defaultBaseUrl)`: parse, look for a credential
with the same `(key, baseUrl)` pair, and either return the existing one
flagged `duplicate: true` (leaving the store untouched, no `_saveSync`) or
append the new credential and persist.  The third component records whether
`_saveSync()` ran. -/
def addKey (s : KeyStoreState) (rawKey : String) (defaultBaseUrl : Option String)
    (freshId nowIso : String) : Option AddKeyResult × KeyStoreState × Bool :=
  match parseKeyString rawKey defaultBaseUrl freshId nowIso with
  | none => (none, s, false)
  | some keyObj =>
      match s.keys.find? (fun k => k.key == keyObj.key && k.baseUrl == keyObj.baseUrl) with
      | some existing => (some ⟨existing, true⟩, s, false)
      | none => (some ⟨keyObj, false⟩, { s with keys := s.keys ++ [keyObj] }, true)

/-- **C10.**  When the parsed `(key, baseUrl)` pair of the raw string equals
the pair of an already-stored credential, `addKey` returns that (first
matching) existing credential flagged `duplicate: true` and leaves the store
completely unchanged — same credential list, same round-robin cursor — and
performs no persistence write. -/
theorem addKey_duplicate_is_frame (s : KeyStoreState) (rawKey : String)
    (defaultBaseUrl : Option String) (freshId nowIso : String) (keyObj : KeyCred)
    (hparse : parseKeyString rawKey defaultBaseUrl freshId nowIso = some keyObj)
    (hdup : ∃ c ∈ s.keys, c.key = keyObj.key ∧ c.baseUrl = keyObj.baseUrl) :
    ∃ existing,
      s.keys.find? (fun k => k.key == keyObj.key && k.baseUrl == keyObj.baseUrl) =
          some existing ∧
      existing.key = keyObj.key ∧ existing.baseUrl = keyObj.baseUrl ∧
      addKey s rawKey defaultBaseUrl freshId nowIso =
        (some ⟨existing, true⟩, s, false) := by
  have hsome : (s.keys.find? (fun k => k.key == keyObj.key && k.baseUrl == keyObj.baseUrl)).isSome := by
    rw [List.find?_isSome]
    obtain ⟨c, hc, h1, h2⟩ := hdup
    exact ⟨c, hc, by simp [h1, h2]⟩
  obtain ⟨existing, hfind⟩ := Option.isSome_iff_exists.mp hsome
  have hprop := List.find?_some hfind
  simp only [Bool.and_eq_true, beq_iff_eq] at hprop
  refine ⟨existing, hfind, hprop.1, hprop.2, ?_⟩
  unfold addKey
  rw [hparse]
  simp only [hfind]

/-- The credential already in the store for the C10 witness: the parse of the
bare key `"sk-aaaabbbbccccdddd"` against the default base url, with an older
id and some traffic counters. -/
def c10Existing : KeyCred :=
  { id := "old-id", key := "sk-aaaabbbbccccdddd", baseUrl := "https://ollama.com/api"
    name := "sk-a...dddd", enabled := true, healthy := false, lastCheck := none
    lastUsed := none, lastError := some "HTTP 500", addedAt := "2024-01-01"
    totalRequests := 7, failedRequests := 6, tags := [] }

/-- The parse of the witness raw key. -/
def c10Parsed : KeyCred :=
  { id := "fresh-id", key := "sk-aaaabbbbccccdddd", baseUrl := "https://ollama.com/api"
    name := "sk-a...dddd", enabled := true, healthy := true, lastCheck := none
    lastUsed := none, lastError := none, addedAt := "2024-02-02"
    totalRequests := 0, failedRequests := 0, tags := [] }

/-- Witness for `addKey_duplicate_is_frame`: adding the same bare key again
returns the stored credential flagged duplicate and changes nothing. -/
theorem addKey_duplicate_is_frame_witness :
    addKey ⟨[c10Existing], 1⟩ "sk-aaaabbbbccccdddd" none "fresh-id" "2024-02-02" =
      (some ⟨c10Existing, true⟩, ⟨[c10Existing], 1⟩, false) := by
  obtain ⟨existing, hfind, hk, hb, hres⟩ :=
    addKey_duplicate_is_frame ⟨[c10Existing], 1⟩ "sk-aaaabbbbccccdddd" none
      "fresh-id" "2024-02-02" c10Parsed (by decide) (by decide)
  have hcomp :
      List.find? (fun k => k.key == c10Parsed.key && k.baseUrl == c10Parsed.baseUrl)
        [c10Existing] = some c10Existing := by decide
  rw [hcomp] at hfind
  rw [Option.some.injEq] at hfind
  rw [← hfind] at hres
  exact hres

-- ============================================================
-- C9: the /v1 auth middleware (src/app.js) and
--     TokenManager.validateToken (src/core/tokenManager.js)
-- ============================================================

/-- A registry auth token (`tokenManager.js` schema; the opaque `metadata`
object, which validation never reads, is not modelled).  Timestamps are epoch
integers (`new Date(x)` comparisons); a zero timestamp is JS-falsy like the
absent one. -/
structure AuthToken where
  id : String
  name : String
  token : String
  tokenHash : String
  enabled : Bool
  createdAt : String
  expiresAt : Option Int
  rateLimit : Option Nat
  quotaLimit : Option Nat
  quotaUsed : Nat
  quotaResetAt : String
  allowedModels : List String
  allowedIPs : List String
  totalRequests : Nat
  totalTokens : Nat
  lastUsed : Option String
deriving Repr, DecidableEq

/-- The result of `TokenManager.validateToken`. -/
structure ValidateResult where
  valid : Bool
  token : Option AuthToken
  error : Option String
deriving Repr, DecidableEq

/-- `TokenManager.validateToken(plainToken)`.  The `_tokenLookup` map is
keyed by the plain token string with later `Map.set` calls overwriting
earlier ones, so a lookup returns the LAST token in the list with that
string (hence the reversed `find?`). -/
def validateToken (tokens : List AuthToken) (now : Int) (plainToken : String) :
    ValidateResult :=
  if plainToken = "" then ⟨false, none, some "Missing token"⟩
  else
    match tokens.reverse.find? (fun t => t.token == plainToken) with
    | none => ⟨false, none, some "Invalid token"⟩
    | some tokenObj =>
        if tokenObj.enabled = false then ⟨false, none, some "Token disabled"⟩
        else if (match tokenObj.expiresAt with
                 | some e => decide (e ≠ 0) && decide (e < now)
                 | none => false) then ⟨false, none, some "Token expired"⟩
        else if (match tokenObj.quotaLimit with
                 | some q => decide (q ≠ 0) && decide (q ≤ tokenObj.quotaUsed)
                 | none => false) then ⟨false, none, some "Token quota exceeded"⟩
        else ⟨true, some tokenObj, none⟩

/-- `TokenManager.checkIPAccess(tokenObj, ip)`: an empty list permits all,
otherwise exact membership. -/
def checkIPAccess (tokenObj : AuthToken) (ip : String) : Bool :=
  tokenObj.allowedIPs.isEmpty || tokenObj.allowedIPs.contains ip

/-- JS `s.toLowerCase()` (ASCII; header schemes are ASCII). -/
def toLowerStr (s : String) : String :=
  String.mk (s.data.map Char.toLower)

/-- The bearer-token extraction of the auth middleware:
`authHeader.toLowerCase().startsWith('bearer ') ? authHeader.substring(7).trim()
: authHeader.trim()`. -/
def extractBearer (authHeader : String) : String :=
  if strStartsWith (toLowerStr authHeader) "bearer " then
    jsTrim (String.mk (authHeader.data.drop 7))
  else jsTrim authHeader

/-- What the `/v1` auth middleware does with a request. -/
inductive AuthDecision where
  | proceed (tokenObj : Option AuthToken)
  | unauthorized (msg : String)
  | forbiddenIP
deriving Repr, DecidableEq

/-- JS truthiness of the `API_TOKEN` env string. -/
def apiTokenSet (apiToken : Option String) : Bool :=
  match apiToken with
  | some s => s ≠ ""
  | none => false

/-- The `/v1` auth middleware of `src/app.js` (the token-auth gate; the IP
and rate-limit gates run before it and are modelled separately).
`tokens.length > 0` is `tokenManager.isMultiTokenMode()`. -/
def authMiddleware (apiToken : Option String) (tokens : List AuthToken)
    (now : Int) (authHeader : Option String) (clientIP : String) : AuthDecision :=
  if apiTokenSet apiToken = false ∧ tokens.length = 0 then .proceed none
  else
    match authHeader with
    | none => .unauthorized "Missing Authorization header"
    | some h =>
        if h = "" then .unauthorized "Missing Authorization header"
        else
          let token := extractBearer h
          if 0 < tokens.length then
            let result := validateToken tokens now token
            if result.valid = false then
              if apiTokenSet apiToken = true ∧ apiToken = some token then .proceed none
              else .unauthorized (result.error.getD "Invalid API token")
            else
              match result.token with
              | some tokenObj =>
                  if checkIPAccess tokenObj clientIP = false then .forbiddenIP
                  else .proceed (some tokenObj)
              | none => .proceed none
          else
            if apiToken = some token then .proceed none
            else .unauthorized "Invalid API token"

/-- **C9.**  In multi-token mode with the legacy `API_TOKEN` secret also set,
a `/v1` request whose presented bearer token fails registry validation is
admitted if and only if the presented token equals `API_TOKEN`; the admission
attaches NO token object to the request (`proceed none`), which is why no
per-token quota or usage can be recorded for it (the routes call
`tokenManager.recordUsage` only under `req.tokenObj`).  When the presented
token differs from the secret, the request is rejected with the registry's
validation error. -/
theorem authMiddleware_legacy_fallback (apiSecret : String) (hs : apiSecret ≠ "")
    (tokens : List AuthToken) (hm : 0 < tokens.length) (now : Int)
    (h : String) (clientIP : String)
    (hinvalid : (validateToken tokens now (extractBearer h)).valid = false) :
    (authMiddleware (some apiSecret) tokens now (some h) clientIP =
        .proceed none ↔ extractBearer h = apiSecret) ∧
    (h ≠ "" → extractBearer h ≠ apiSecret →
      authMiddleware (some apiSecret) tokens now (some h) clientIP =
        .unauthorized
          ((validateToken tokens now (extractBearer h)).error.getD "Invalid API token")) := by
  have hset : apiTokenSet (some apiSecret) = true := by
    simp [apiTokenSet, hs]
  have hcond1 : ¬ (apiTokenSet (some apiSecret) = false ∧ tokens.length = 0) := by
    intro hc
    rw [hset] at hc
    exact Bool.noConfusion hc.1
  by_cases hh : h = ""
  · subst hh
    have hval : authMiddleware (some apiSecret) tokens now (some "") clientIP =
        .unauthorized "Missing Authorization header" := by
      rw [authMiddleware, if_neg hcond1]
      rfl
    have hext : extractBearer "" = "" := by decide
    constructor
    · rw [hval, hext]
      constructor
      · intro habs
        exact absurd habs (by intro hx; cases hx)
      · intro heq
        exact absurd heq.symm hs
    · intro hne
      exact absurd rfl hne
  · have hstep : authMiddleware (some apiSecret) tokens now (some h) clientIP =
        (if apiTokenSet (some apiSecret) = true ∧
            (some apiSecret : Option String) = some (extractBearer h) then
          AuthDecision.proceed none
         else .unauthorized
          ((validateToken tokens now (extractBearer h)).error.getD "Invalid API token")) := by
      rw [authMiddleware, if_neg hcond1]
      simp only []
      rw [if_neg hh, if_pos hm, if_pos hinvalid]
    constructor
    · rw [hstep]
      by_cases heq : extractBearer h = apiSecret
      · rw [if_pos ⟨hset, by rw [heq]⟩]
        simp [heq]
      · rw [if_neg (fun hc => heq (Option.some.inj hc.2).symm)]
        constructor
        · intro habs
          cases habs
        · intro hx
          exact absurd hx heq
    · intro _ heq
      rw [hstep, if_neg (fun hc => heq (Option.some.inj hc.2).symm)]

/-- A registry token for the C9 witness. -/
def c9Token : AuthToken :=
  { id := "tok-1", name := "alice", token := "sk-o2o-0123456789abcdef"
    tokenHash := "h", enabled := true, createdAt := "2024-01-01"
    expiresAt := none, rateLimit := none, quotaLimit := none, quotaUsed := 0
    quotaResetAt := "2024-02-01", allowedModels := [], allowedIPs := []
    totalRequests := 0, totalTokens := 0, lastUsed := none }

/-- Witness for `authMiddleware_legacy_fallback`: with one registry token and
the legacy secret set, presenting the legacy secret (which fails registry
validation) is admitted with no token object attached. -/
theorem authMiddleware_legacy_fallback_witness :
    authMiddleware (some "legacy-secret") [c9Token] 1000
      (some "Bearer legacy-secret") "1.2.3.4" = .proceed none := by
  have hiff := (authMiddleware_legacy_fallback "legacy-secret" (by decide) [c9Token]
    (by decide) 1000 "Bearer legacy-secret" "1.2.3.4" (by decide)).1
  exact hiff.mpr (by decide)

-- ============================================================
-- C8: proxyWithRetry (src/routes/openai.js)
-- ============================================================

/-- What one upstream attempt of `proxyToOllama` can produce: an HTTP
response with a status code, or a transport-level failure (connect timeout /
network error, the exceptions without a `.status`). -/
inductive UpstreamOutcome where
  | http (status : Nat)
  | transport
deriving Repr, DecidableEq

/-- `Response.ok` — status in the 2xx range. -/
def resOk (status : Nat) : Bool :=
  200 ≤ status && status < 300

/-- The body of the `proxyWithRetry` loop over attempt outcomes.  `outcomes
attempt` is what the `attempt`-th upstream call produces; backend resolution
is assumed to succeed (the `503 no-keys` throw happens before any upstream
attempt and is outside this claim).  Error results carry only the HTTP
status of the structured `{status, message}` throw.  The second component is
the number of upstream attempts performed.  `fuel` is the number of loop
iterations left (`MAX_RETRIES + 1 - attempt`); the zero-fuel case is the
`throw 504 / All retries exhausted` after the loop. -/
def proxyGo (outcomes : Nat → UpstreamOutcome) (maxRetries : Nat) :
    Nat → Nat → Except Nat Nat × Nat
  | _, 0 => (Except.error 504, 0)
  | attempt, Nat.succ fuel =>
      match outcomes attempt with
      | .http s =>
          if resOk s then (Except.ok s, 1)
          else if (s = 401 ∨ s = 403) ∧ attempt < maxRetries then
            let r := proxyGo outcomes maxRetries (attempt + 1) fuel
            (r.1, r.2 + 1)
          else (Except.error s, 1)
      | .transport =>
          if attempt < maxRetries then
            let r := proxyGo outcomes maxRetries (attempt + 1) fuel
            (r.1, r.2 + 1)
          else (Except.error 504, 1)

/-- `proxyWithRetry`: the loop `for (attempt = 0; attempt <= MAX_RETRIES;
attempt++)`. -/
def proxyWithRetry (maxRetries : Nat) (outcomes : Nat → UpstreamOutcome) :
    Except Nat Nat × Nat :=
  proxyGo outcomes maxRetries 0 (maxRetries + 1)

lemma proxyGo_spec (outcomes : Nat → UpstreamOutcome) (maxRetries : Nat) :
    ∀ (fuel attempt : Nat), attempt + fuel = maxRetries + 1 → attempt ≤ maxRetries →
      (1 ≤ (proxyGo outcomes maxRetries attempt fuel).2 ∧
       (proxyGo outcomes maxRetries attempt fuel).2 ≤ fuel) ∧
      (∀ s, (proxyGo outcomes maxRetries attempt fuel).1 = Except.ok s →
        outcomes (attempt + (proxyGo outcomes maxRetries attempt fuel).2 - 1) =
            .http s ∧ resOk s = true) ∧
      (∀ j, j + 1 < (proxyGo outcomes maxRetries attempt fuel).2 →
        outcomes (attempt + j) = .transport ∨
        ∃ st, outcomes (attempt + j) = .http st ∧ (st = 401 ∨ st = 403)) ∧
      (∀ e, (proxyGo outcomes maxRetries attempt fuel).1 = Except.error e →
        (outcomes (attempt + (proxyGo outcomes maxRetries attempt fuel).2 - 1) =
            .transport ∧ e = 504) ∨
        (∃ st,
          outcomes (attempt + (proxyGo outcomes maxRetries attempt fuel).2 - 1) =
              .http st ∧ resOk st = false ∧ e = st)) := by
  intro fuel
  induction fuel with
  | zero =>
    intro attempt hfa hle
    omega
  | succ fuel ih =>
    intro attempt hfa hle
    cases ho : outcomes attempt with
    | http s =>
      by_cases hok : resOk s = true
      · simp only [proxyGo, ho, if_pos hok]
        refine ⟨⟨by omega, by omega⟩, ?_, ?_, ?_⟩
        · intro t ht
          rw [Except.ok.injEq] at ht
          subst ht
          simpa [Nat.add_sub_cancel] using ⟨ho, hok⟩
        · intro j hj
          omega
        · intro e he
          cases he
      · by_cases hretry : (s = 401 ∨ s = 403) ∧ attempt < maxRetries
        · simp only [proxyGo, ho, if_neg hok, if_pos hretry]
          have ihc := ih (attempt + 1) (by omega) (by omega)
          obtain ⟨⟨ih1, ih2⟩, ihok, ihretry, iherr⟩ := ihc
          set r := proxyGo outcomes maxRetries (attempt + 1) fuel with hr
          refine ⟨⟨by omega, by omega⟩, ?_, ?_, ?_⟩
          · intro t ht
            have hidx : attempt + (r.2 + 1) - 1 = attempt + 1 + r.2 - 1 := by omega
            rw [hidx]
            exact ihok t ht
          · intro j hj
            cases j with
            | zero =>
              right
              exact ⟨s, by simpa using ho, hretry.1⟩
            | succ k =>
              have hidx : attempt + (k + 1) = attempt + 1 + k := by omega
              rw [hidx]
              exact ihretry k (by omega)
          · intro e he
            have hidx : attempt + (r.2 + 1) - 1 = attempt + 1 + r.2 - 1 := by omega
            rw [hidx]
            exact iherr e he
        · simp only [proxyGo, ho, if_neg hok, if_neg hretry]
          refine ⟨⟨by omega, by omega⟩, ?_, ?_, ?_⟩
          · intro t ht
            cases ht
          · intro j hj
            omega
          · intro e he
            rw [Except.error.injEq] at he
            subst he
            right
            refine ⟨s, by simpa [Nat.add_sub_cancel] using ho, ?_, rfl⟩
            simpa using hok
    | transport =>
      by_cases hretry : attempt < maxRetries
      · simp only [proxyGo, ho, if_pos hretry]
        have ihc := ih (attempt + 1) (by omega) (by omega)
        obtain ⟨⟨ih1, ih2⟩, ihok, ihretry, iherr⟩ := ihc
        set r := proxyGo outcomes maxRetries (attempt + 1) fuel with hr
        refine ⟨⟨by omega, by omega⟩, ?_, ?_, ?_⟩
        · intro t ht
          have hidx : attempt + (r.2 + 1) - 1 = attempt + 1 + r.2 - 1 := by omega
          rw [hidx]
          exact ihok t ht
        · intro j hj
          cases j with
          | zero =>
            left
            simpa using ho
          | succ k =>
            have hidx : attempt + (k + 1) = attempt + 1 + k := by omega
            rw [hidx]
            exact ihretry k (by omega)
        · intro e he
          have hidx : attempt + (r.2 + 1) - 1 = attempt + 1 + r.2 - 1 := by omega
          rw [hidx]
          exact iherr e he
      · simp only [proxyGo, ho, if_neg hretry]
        refine ⟨⟨by omega, by omega⟩, ?_, ?_, ?_⟩
        · intro t ht
          cases ht
        · intro j hj
          omega
        · intro e he
          rw [Except.error.injEq] at he
          subst he
          left
          exact ⟨by simpa [Nat.add_sub_cancel] using ho, rfl⟩

lemma proxyGo_retries (outcomes : Nat → UpstreamOutcome) (maxRetries : Nat) :
    ∀ (fuel attempt : Nat), attempt + fuel = maxRetries + 1 → attempt ≤ maxRetries →
      ∀ j, j < (proxyGo outcomes maxRetries attempt fuel).2 →
        attempt + j < maxRetries →
        (outcomes (attempt + j) = .transport ∨
          ∃ st, outcomes (attempt + j) = .http st ∧ (st = 401 ∨ st = 403)) →
        j + 1 < (proxyGo outcomes maxRetries attempt fuel).2 := by
  intro fuel
  induction fuel with
  | zero =>
    intro attempt hfa hle j hj
    simp only [proxyGo] at hj
    omega
  | succ fuel ih =>
    intro attempt hfa hle j hj hjm hret
    cases ho : outcomes attempt with
    | http s =>
      by_cases hok : resOk s = true
      · simp only [proxyGo, ho, if_pos hok] at hj
        have hj0 : j = 0 := by omega
        subst hj0
        simp only [Nat.add_zero] at hret
        rcases hret with ht | ⟨st, hst, hcase⟩
        · rw [ho] at ht
          cases ht
        · rw [ho, UpstreamOutcome.http.injEq] at hst
          subst hst
          rcases hcase with h1 | h1 <;> subst h1 <;> exact absurd hok (by decide)
      · by_cases hretry : (s = 401 ∨ s = 403) ∧ attempt < maxRetries
        · simp only [proxyGo, ho, if_neg hok, if_pos hretry] at hj ⊢
          set r := proxyGo outcomes maxRetries (attempt + 1) fuel with hr
          have hr1 : 1 ≤ r.2 :=
            (proxyGo_spec outcomes maxRetries fuel (attempt + 1)
              (by omega) (by omega)).1.1
          cases j with
          | zero => omega
          | succ k =>
            have hidx : attempt + 1 + k = attempt + (k + 1) := by omega
            have hk := ih (attempt + 1) (by omega) (by omega) k
              (by rw [← hr]; omega)
              (by rw [hidx]; exact hjm) (by rw [hidx]; exact hret)
            rw [← hr] at hk
            omega
        · simp only [proxyGo, ho, if_neg hok, if_neg hretry] at hj
          have hj0 : j = 0 := by omega
          subst hj0
          simp only [Nat.add_zero] at hret
          rcases hret with ht | ⟨st, hst, hcase⟩
          · rw [ho] at ht
            cases ht
          · rw [ho, UpstreamOutcome.http.injEq] at hst
            subst hst
            exact absurd ⟨hcase, by omega⟩ hretry
    | transport =>
      by_cases hretry : attempt < maxRetries
      · simp only [proxyGo, ho, if_pos hretry] at hj ⊢
        set r := proxyGo outcomes maxRetries (attempt + 1) fuel with hr
        have hr1 : 1 ≤ r.2 :=
          (proxyGo_spec outcomes maxRetries fuel (attempt + 1)
            (by omega) (by omega)).1.1
        cases j with
        | zero => omega
        | succ k =>
          have hidx : attempt + 1 + k = attempt + (k + 1) := by omega
          have hk := ih (attempt + 1) (by omega) (by omega) k
            (by rw [← hr]; omega)
            (by rw [hidx]; exact hjm) (by rw [hidx]; exact hret)
          rw [← hr] at hk
          omega
      · omega

/-- **C8 (amended).**  The retry loop performs between 1 and `MAX_RETRIES+1`
upstream attempts; a 2xx outcome is returned as the result (and is the final
attempt); every non-final attempt failed with a transport error or an
upstream HTTP 401/403 (any other non-2xx status is raised immediately,
without retry); conversely every performed attempt that fails with a
transport error or a 401/403 while attempts remain IS retried — a further
attempt follows; and when all attempts fail the raised error carries the
FINAL attempt's upstream HTTP status, or 504 when the final attempt failed at
the transport level (this is where the claim as stated is off: an earlier
401/403 does not resurface when the last attempt is a transport failure). -/
theorem proxyWithRetry_envelope (maxRetries : Nat) (outcomes : Nat → UpstreamOutcome) :
    (1 ≤ (proxyWithRetry maxRetries outcomes).2 ∧
     (proxyWithRetry maxRetries outcomes).2 ≤ maxRetries + 1) ∧
    (∀ s, (proxyWithRetry maxRetries outcomes).1 = Except.ok s →
      outcomes ((proxyWithRetry maxRetries outcomes).2 - 1) = .http s ∧
        resOk s = true) ∧
    (∀ j, j + 1 < (proxyWithRetry maxRetries outcomes).2 →
      outcomes j = .transport ∨
      ∃ st, outcomes j = .http st ∧ (st = 401 ∨ st = 403)) ∧
    (∀ j, j < (proxyWithRetry maxRetries outcomes).2 → j < maxRetries →
      (outcomes j = .transport ∨
        ∃ st, outcomes j = .http st ∧ (st = 401 ∨ st = 403)) →
      j + 1 < (proxyWithRetry maxRetries outcomes).2) ∧
    (∀ e, (proxyWithRetry maxRetries outcomes).1 = Except.error e →
      (outcomes ((proxyWithRetry maxRetries outcomes).2 - 1) = .transport ∧
        e = 504) ∨
      (∃ st, outcomes ((proxyWithRetry maxRetries outcomes).2 - 1) = .http st ∧
        resOk st = false ∧ e = st)) := by
  have h := proxyGo_spec outcomes maxRetries (maxRetries + 1) 0 (by omega) (by omega)
  have hpos := proxyGo_retries outcomes maxRetries (maxRetries + 1) 0
    (by omega) (by omega)
  obtain ⟨h1, h2, h3, h4⟩ := h
  refine ⟨by simpa [proxyWithRetry] using h1, by simpa [proxyWithRetry] using h2,
    by simpa [proxyWithRetry] using h3, ?_, by simpa [proxyWithRetry] using h4⟩
  intro j hj hjm hret
  have hc := hpos j (by simpa [proxyWithRetry] using hj) (by omega)
    (by simpa using hret)
  simpa [proxyWithRetry] using hc

/-- The attempt outcomes of the C8 counterexample: an upstream 401, then only
transport failures. -/
def c8Outcomes : Nat → UpstreamOutcome :=
  fun n => if n = 0 then .http 401 else .transport

/-- **C8, counterexample to the claim as stated.**  With `MAX_RETRIES = 2`
and attempts failing as 401, transport, transport, the loop raises 504 —
although not every attempt failed at the transport level, so the claim as
stated prescribes the last failing upstream HTTP status (401) instead. -/
theorem proxyWithRetry_mixed_tail_gives_504 :
    (proxyWithRetry 2 c8Outcomes).1 = Except.error 504 ∧
    (proxyWithRetry 2 c8Outcomes).2 = 3 ∧
    c8Outcomes 0 = .http 401 ∧ c8Outcomes 1 = .transport ∧
    c8Outcomes 2 = .transport := by
  refine ⟨rfl, rfl, rfl, rfl, rfl⟩

/-- The attempt outcomes of the C8 witness: a 401, then a 2xx. -/
def c8WitnessOutcomes : Nat → UpstreamOutcome :=
  fun n => if n = 0 then .http 401 else .http 200

/-- Witness for `proxyWithRetry_envelope`: a 401 followed by a 200 succeeds
within the attempt bound, and the positive retry clause forces the second
attempt after the 401. -/
theorem proxyWithRetry_envelope_witness :
    (proxyWithRetry 2 c8WitnessOutcomes).1 = Except.ok 200 ∧
    (proxyWithRetry 2 c8WitnessOutcomes).2 ≤ 2 + 1 ∧
    1 < (proxyWithRetry 2 c8WitnessOutcomes).2 :=
  ⟨rfl, (proxyWithRetry_envelope 2 c8WitnessOutcomes).1.2,
   (proxyWithRetry_envelope 2 c8WitnessOutcomes).2.2.2.1 0 (by decide) (by decide)
     (Or.inr ⟨401, rfl, Or.inl rfl⟩)⟩

/-! ### C3: sliding-window rate limiter (src/core/rateLimiter.js) -/


/-- One per-key entry of the sliding-window map. -/
structure RLEntry where
  windowStart : Int
  requests : List Int
deriving Repr, DecidableEq

/-- `Math.ceil(a / b)` for integers, `b > 0`. -/
def jsCeilDiv (a b : Int) : Int := Int.fdiv (a + b - 1) b

/-- The result object of `SlidingWindowCounter.consume`. -/
structure ConsumeResult where
  allowed : Bool
  remaining : Nat
  resetAt : Int
  retryAfter : Option Int
deriving Repr, DecidableEq

def consume (windowMs : Int) (maxRequests : Nat) (now : Int) (entry : Option RLEntry) :
    ConsumeResult × RLEntry :=
  let windowStart := now - windowMs
  let e : RLEntry :=
    match entry with
    | none => { windowStart := now, requests := [] }
    | some e0 =>
        if e0.windowStart < windowStart then { windowStart := now, requests := [] }
        else e0
  let requests := e.requests.filter fun t => decide (windowStart < t)
  if maxRequests ≤ requests.length then
    let oldestInWindow :=
      match requests.head? with
      | some t => if t = 0 then now else t
      | none => now
    let resetAt := oldestInWindow + windowMs
    ({ allowed := false, remaining := 0, resetAt := jsCeilDiv resetAt 1000,
       retryAfter := some (jsCeilDiv (resetAt - now) 1000) },
     { windowStart := e.windowStart, requests := requests })
  else
    ({ allowed := true, remaining := maxRequests - (requests.length + 1),
       resetAt := jsCeilDiv (now + windowMs) 1000, retryAfter := none },
     { windowStart := e.windowStart, requests := requests ++ [now] })

def runConsume (windowMs : Int) (maxRequests : Nat) :
    List Int → Option RLEntry → List Bool × RLEntry
  | [], st => ([], st.getD ⟨0, []⟩)
  | t :: ts, st =>
      let r := consume windowMs maxRequests t st
      let rest := runConsume windowMs maxRequests ts (some r.2)
      (r.1.allowed :: rest.1, rest.2)

def runAllowedTimes (windowMs : Int) (maxRequests : Nat) :
    List Int → Option RLEntry → List Int
  | [], _ => []
  | t :: ts, st =>
      let r := consume windowMs maxRequests t st
      (if r.1.allowed then [t] else []) ++
        runAllowedTimes windowMs maxRequests ts (some r.2)

/-- Membership of the half-open window `[a, a + W)`. -/
def inWin (W a s : Int) : Bool := decide (a ≤ s) && decide (s < a + W)

def genP (W ws a : Int) (s : Int) : Bool := decide (ws ≤ s) && inWin W a s

def oldP (W ws t : Int) (s : Int) : Bool := decide (s < ws) && decide (t - W < s)

def reqP (W ws t : Int) (s : Int) : Bool := decide (ws ≤ s) && decide (t - W < s)

/-- The run invariant: `allowed` is the list of allowed call times so far,
`e` the stored entry, `tlast` the time of the last call. -/
structure InvS (W : Int) (N : Nat) (allowed : List Int) (e : RLEntry) (tlast : Int) : Prop where
  ws_le : e.windowStart ≤ tlast
  le_ws : tlast ≤ e.windowStart + W
  reqs_eq : e.requests = allowed.filter (reqP W e.windowStart tlast)
  gen_bound : ∀ a : Int, allowed.countP (genP W e.windowStart a) ≤ N
  old_bound : allowed.countP (oldP W e.windowStart tlast) ≤ N
  mem_le : ∀ s ∈ allowed, s ≤ tlast

lemma countP_split (l : List Int) (p q : Int → Bool) :
    l.countP p = l.countP (fun s => p s && q s) + l.countP (fun s => p s && !q s) := by
  induction l with
  | nil => rfl
  | cons x xs ih =>
    simp only [List.countP_cons, ih]
    by_cases hp : p x = true
    · by_cases hq : q x = true <;> simp [hp, hq] <;> omega
    · simp only [Bool.not_eq_true] at hp
      simp [hp]

lemma consume_none_shape (W : Int) (N : Nat) (now : Int) :
    (consume W N now none).1.allowed = decide (0 < N) ∧
    (consume W N now none).2 =
      (if 0 < N then (⟨now, [now]⟩ : RLEntry) else ⟨now, []⟩) := by
  by_cases hN : N = 0
  · subst hN
    simp [consume]
  · have h1 : ¬ N ≤ ([] : List Int).length := by simpa using hN
    have h2 : 0 < N := Nat.pos_of_ne_zero hN
    constructor <;> simp [consume, h1, h2, hN]

lemma consume_reset_shape (W : Int) (N : Nat) (now : Int) (e0 : RLEntry)
    (hreset : e0.windowStart < now - W) :
    (consume W N now (some e0)).1.allowed = decide (0 < N) ∧
    (consume W N now (some e0)).2 =
      (if 0 < N then (⟨now, [now]⟩ : RLEntry) else ⟨now, []⟩) := by
  by_cases hN : N = 0
  · subst hN
    simp [consume, hreset]
  · have h1 : ¬ N ≤ ([] : List Int).length := by simpa using hN
    have h2 : 0 < N := Nat.pos_of_ne_zero hN
    constructor <;> simp [consume, hreset, h1, h2, hN]

lemma consume_keep_shape (W : Int) (N : Nat) (now : Int) (e0 : RLEntry)
    (hkeep : ¬ e0.windowStart < now - W) :
    (consume W N now (some e0)).1.allowed =
      decide ((e0.requests.filter fun t => decide (now - W < t)).length < N) ∧
    (consume W N now (some e0)).2 =
      (if (e0.requests.filter fun t => decide (now - W < t)).length < N then
        (⟨e0.windowStart, (e0.requests.filter fun t => decide (now - W < t)) ++ [now]⟩ : RLEntry)
       else ⟨e0.windowStart, e0.requests.filter fun t => decide (now - W < t)⟩) := by
  by_cases hlen : (e0.requests.filter fun t => decide (now - W < t)).length < N
  · have h1 : ¬ N ≤ (e0.requests.filter fun t => decide (now - W < t)).length := by omega
    constructor <;> simp [consume, hkeep, h1, hlen]
  · have h1 : N ≤ (e0.requests.filter fun t => decide (now - W < t)).length := by omega
    constructor <;> simp [consume, hkeep, h1, hlen]

lemma fresh_inv (W : Int) (hW : 0 < W) (N : Nat) (allowed : List Int) (now : Int)
    (hmem : ∀ s ∈ allowed, s < now)
    (hrecent : allowed.countP (fun s => decide (now - W < s)) ≤ N) :
    (0 < N → InvS W N (allowed ++ [now]) ⟨now, [now]⟩ now) ∧
    (N = 0 → InvS W N allowed ⟨now, []⟩ now) := by
  have hsubrec : allowed.countP (oldP W now now) ≤ N := by
    refine le_trans (List.countP_mono_left ?_) hrecent
    intro s _ hp
    unfold oldP at hp
    simp at hp
    simp [hp.2]
  constructor
  · intro hN
    refine ⟨le_refl now, by show now ≤ now + W; omega, ?_, ?_, ?_, ?_⟩
    · show ([now] : List Int) = (allowed ++ [now]).filter (reqP W now now)
      rw [List.filter_append]
      have h1 : allowed.filter (reqP W now now) = [] := by
        apply List.filter_eq_nil_iff.mpr
        intro s hs
        have := hmem s hs
        unfold reqP
        simp
        intro hc
        omega
      have h2 : [now].filter (reqP W now now) = [now] := by
        unfold reqP
        simp
        omega
      rw [h1, h2]
      rfl
    · intro a
      show (allowed ++ [now]).countP (genP W now a) ≤ N
      rw [List.countP_append]
      have h1 : allowed.countP (genP W now a) = 0 := by
        apply List.countP_eq_zero.mpr
        intro s hs
        have := hmem s hs
        unfold genP
        simp
        intro hc
        omega
      have h2 : ([now] : List Int).countP (genP W now a) ≤ 1 := by
        simp [List.countP_cons]
        split <;> omega
      omega
    · show (allowed ++ [now]).countP (oldP W now now) ≤ N
      rw [List.countP_append]
      have h2 : ([now] : List Int).countP (oldP W now now) = 0 := by
        simp [List.countP_cons, oldP]
      omega
    · intro s hs
      rcases List.mem_append.mp hs with h | h
      · exact le_of_lt (hmem s h)
      · simp at h
        omega
  · intro hN
    subst hN
    refine ⟨le_refl now, by show now ≤ now + W; omega, ?_, ?_, ?_, ?_⟩
    · show ([] : List Int) = allowed.filter (reqP W now now)
      symm
      apply List.filter_eq_nil_iff.mpr
      intro s hs
      have := hmem s hs
      unfold reqP
      simp
      intro hc
      omega
    · intro a
      show allowed.countP (genP W now a) ≤ 0
      refine Nat.le_zero.mpr (List.countP_eq_zero.mpr ?_)
      intro s hs
      have := hmem s hs
      unfold genP
      simp
      intro hc
      omega
    · show allowed.countP (oldP W now now) ≤ 0
      exact hsubrec
    · intro s hs
      exact le_of_lt (hmem s hs)

lemma fresh_G (W : Int) (N : Nat) (allowed : List Int) (now : Int)
    (hrecent : allowed.countP (fun s => decide (now - W < s)) ≤ N)
    (hG : ∀ a, allowed.countP (inWin W a) ≤ 2 * N) (hN : 0 < N) :
    ∀ a, (allowed ++ [now]).countP (inWin W a) ≤ 2 * N := by
  intro a
  rw [List.countP_append]
  by_cases hwin : inWin W a now = true
  · unfold inWin at hwin
    simp only [Bool.and_eq_true, decide_eq_true_eq] at hwin
    have hsub : allowed.countP (inWin W a) ≤
        allowed.countP (fun s => decide (now - W < s)) := by
      apply List.countP_mono_left
      intro s _ hp
      unfold inWin at hp
      simp only [Bool.and_eq_true, decide_eq_true_eq] at hp
      simp only [decide_eq_true_eq]
      omega
    have hone : ([now] : List Int).countP (inWin W a) ≤ 1 := by
      simp [List.countP_cons]
      split <;> omega
    omega
  · have hwin' : inWin W a now = false := by
      cases h : inWin W a now
      · rfl
      · exact absurd h hwin
    have hzero : ([now] : List Int).countP (inWin W a) = 0 := by
      simp [List.countP_cons, hwin']
    have := hG a
    omega

lemma keep_reqs (W : Int) (allowed : List Int) (e0 : RLEntry) (tlast now : Int)
    (hle : tlast ≤ now)
    (hreq : e0.requests = allowed.filter (reqP W e0.windowStart tlast)) :
    e0.requests.filter (fun t => decide (now - W < t)) =
      allowed.filter (reqP W e0.windowStart now) := by
  rw [hreq, List.filter_filter]
  apply List.filter_congr
  intro s _
  unfold reqP
  by_cases h1 : e0.windowStart ≤ s <;> by_cases h2 : now - W < s <;>
    by_cases h3 : tlast - W < s <;> simp [h1, h2, h3] <;> omega

lemma keep_inv (W : Int) (hW : 0 < W) (N : Nat) (allowed : List Int) (e0 : RLEntry)
    (tlast now : Int) (hle : tlast ≤ now) (hkeep : ¬ e0.windowStart < now - W)
    (hinv : InvS W N allowed e0 tlast)
    (hG : ∀ a, allowed.countP (inWin W a) ≤ 2 * N) :
    ((e0.requests.filter fun t => decide (now - W < t)).length < N →
       InvS W N (allowed ++ [now])
         ⟨e0.windowStart, (e0.requests.filter fun t => decide (now - W < t)) ++ [now]⟩ now ∧
       (∀ a, (allowed ++ [now]).countP (inWin W a) ≤ 2 * N)) ∧
    (¬ (e0.requests.filter fun t => decide (now - W < t)).length < N →
       InvS W N allowed ⟨e0.windowStart, e0.requests.filter fun t => decide (now - W < t)⟩ now) := by
  have hreqs := keep_reqs W allowed e0 tlast now hle hinv.reqs_eq
  have hlen : (e0.requests.filter fun t => decide (now - W < t)).length =
      allowed.countP (reqP W e0.windowStart now) := by
    rw [hreqs, ← List.countP_eq_length_filter]
  have hws_now : e0.windowStart ≤ now := le_trans hinv.ws_le hle
  have hnow_ws : now ≤ e0.windowStart + W := by omega
  have holdnow : allowed.countP (oldP W e0.windowStart now) ≤ N := by
    refine le_trans (List.countP_mono_left ?_) hinv.old_bound
    intro s _ hp
    unfold oldP at hp ⊢
    simp only [Bool.and_eq_true, decide_eq_true_eq] at hp
    simp only [Bool.and_eq_true, decide_eq_true_eq]
    omega
  have hgen_le : ∀ a : Int, a ≤ now → now < a + W →
      allowed.countP (genP W e0.windowStart a) ≤
        allowed.countP (reqP W e0.windowStart now) := by
    intro a ha1 ha2
    apply List.countP_mono_left
    intro s _ hp
    unfold genP inWin at hp
    unfold reqP
    simp only [Bool.and_eq_true, decide_eq_true_eq] at hp
    simp only [Bool.and_eq_true, decide_eq_true_eq]
    omega
  have hmem_now : ∀ s ∈ allowed, s ≤ now := fun s hs => le_trans (hinv.mem_le s hs) hle
  constructor
  · intro hN
    rw [hlen] at hN
    constructor
    · refine ⟨hws_now, hnow_ws, ?_, ?_, ?_, ?_⟩
      · show (e0.requests.filter fun t => decide (now - W < t)) ++ [now] =
          (allowed ++ [now]).filter (reqP W e0.windowStart now)
        rw [List.filter_append, hreqs]
        have h2 : [now].filter (reqP W e0.windowStart now) = [now] := by
          unfold reqP
          simp
          omega
        rw [h2]
      · intro a
        show (allowed ++ [now]).countP (genP W e0.windowStart a) ≤ N
        rw [List.countP_append]
        by_cases hwin : inWin W a now = true
        · unfold inWin at hwin
          simp only [Bool.and_eq_true, decide_eq_true_eq] at hwin
          have h1 := hgen_le a hwin.1 hwin.2
          have h2 : ([now] : List Int).countP (genP W e0.windowStart a) ≤ 1 := by
            simp [List.countP_cons]
            split <;> omega
          omega
        · have hwin' : inWin W a now = false := by
            cases h : inWin W a now
            · rfl
            · exact absurd h hwin
          have h2 : ([now] : List Int).countP (genP W e0.windowStart a) = 0 := by
            simp [List.countP_cons, genP, hwin']
          have h1 := hinv.gen_bound a
          omega
      · show (allowed ++ [now]).countP (oldP W e0.windowStart now) ≤ N
        rw [List.countP_append]
        have h2 : ([now] : List Int).countP (oldP W e0.windowStart now) = 0 := by
          simp [List.countP_cons, oldP]
          omega
        omega
      · intro s hs
        rcases List.mem_append.mp hs with h | h
        · exact hmem_now s h
        · simp at h
          omega
    · intro a
      rw [List.countP_append]
      by_cases hwin : inWin W a now = true
      · unfold inWin at hwin
        simp only [Bool.and_eq_true, decide_eq_true_eq] at hwin
        have hsplit := countP_split allowed (inWin W a) (fun s => decide (s < e0.windowStart))
        have hpart1 : allowed.countP (fun s => inWin W a s && decide (s < e0.windowStart)) ≤
            allowed.countP (oldP W e0.windowStart now) := by
          apply List.countP_mono_left
          intro s _ hp
          unfold inWin at hp
          unfold oldP
          simp only [Bool.and_eq_true, decide_eq_true_eq] at hp
          simp only [Bool.and_eq_true, decide_eq_true_eq]
          omega
        have hpart2 : allowed.countP (fun s => inWin W a s && !decide (s < e0.windowStart)) ≤
            allowed.countP (genP W e0.windowStart a) := by
          apply List.countP_mono_left
          intro s _ hp
          unfold inWin at hp
          unfold genP inWin
          simp only [Bool.and_eq_true, Bool.not_eq_true', decide_eq_false_iff_not,
            decide_eq_true_eq] at hp
          simp only [Bool.and_eq_true, decide_eq_true_eq]
          omega
        have hgen := hgen_le a hwin.1 hwin.2
        have h2 : ([now] : List Int).countP (inWin W a) ≤ 1 := by
          simp [List.countP_cons]
          split <;> omega
        omega
      · have hwin' : inWin W a now = false := by
          cases h : inWin W a now
          · rfl
          · exact absurd h hwin
        have h2 : ([now] : List Int).countP (inWin W a) = 0 := by
          simp [List.countP_cons, hwin']
        have := hG a
        omega
  · intro hN
    refine ⟨hws_now, hnow_ws, ?_, hinv.gen_bound, holdnow, hmem_now⟩
    show e0.requests.filter (fun t => decide (now - W < t)) =
      allowed.filter (reqP W e0.windowStart now)
    exact hreqs

lemma runConsume_G (W : Int) (hW : 0 < W) (N : Nat) :
    ∀ (trace : List Int) (st : Option RLEntry) (allowed : List Int) (tlast : Int),
      List.Chain (· ≤ ·) tlast trace →
      (match st with
       | none => allowed = []
       | some e => InvS W N allowed e tlast) →
      (∀ a, allowed.countP (inWin W a) ≤ 2 * N) →
      ∀ a, (allowed ++ runAllowedTimes W N trace st).countP (inWin W a) ≤ 2 * N := by
  intro trace
  induction trace with
  | nil =>
    intro st allowed tlast _ _ hG a
    simpa [runAllowedTimes] using hG a
  | cons t ts ih =>
    intro st allowed tlast hchain hst hG a
    have hle : tlast ≤ t := (List.chain_cons.mp hchain).1
    have hchain' : List.Chain (· ≤ ·) t ts := (List.chain_cons.mp hchain).2
    simp only [runAllowedTimes]
    match st with
    | none =>
      have hallowed : allowed = [] := hst
      subst hallowed
      have hshape := consume_none_shape W N t
      rw [hshape.1, hshape.2]
      have hmem : ∀ s ∈ ([] : List Int), s < t := by simp
      have hrecent : ([] : List Int).countP (fun s => decide (t - W < s)) ≤ N := by simp
      have hfresh := fresh_inv W hW N [] t hmem hrecent
      by_cases hN : 0 < N
      · simp only [decide_eq_true_eq, hN, if_true]
        have hG' := fresh_G W N [] t hrecent hG hN
        have := ih (some ⟨t, [t]⟩) ([] ++ [t]) t hchain' (hfresh.1 hN) hG' a
        simpa [List.append_assoc] using this
      · have hN0 : N = 0 := by omega
        simp only [decide_eq_true_eq, hN, if_false]
        have := ih (some ⟨t, []⟩) [] t hchain' (hfresh.2 hN0) hG a
        simpa using this
    | some e0 =>
      by_cases hreset : e0.windowStart < t - W
      · have hshape := consume_reset_shape W N t e0 hreset
        rw [hshape.1, hshape.2]
        have hinv : InvS W N allowed e0 tlast := hst
        have hmem : ∀ s ∈ allowed, s < t := by
          intro s hs
          have h1 := hinv.mem_le s hs
          have h2 := hinv.le_ws
          omega
        have hrecent : allowed.countP (fun s => decide (t - W < s)) ≤ N := by
          refine le_trans (List.countP_mono_left ?_) (hinv.gen_bound (t - W + 1))
          intro s hs hp
          simp only [decide_eq_true_eq] at hp
          have h1 := hinv.mem_le s hs
          have h2 := hinv.le_ws
          unfold genP inWin
          simp only [Bool.and_eq_true, decide_eq_true_eq]
          omega
        have hfresh := fresh_inv W hW N allowed t hmem hrecent
        by_cases hN : 0 < N
        · simp only [decide_eq_true_eq, hN, if_true]
          have hG' := fresh_G W N allowed t hrecent hG hN
          have := ih (some ⟨t, [t]⟩) (allowed ++ [t]) t hchain' (hfresh.1 hN) hG' a
          simpa [List.append_assoc] using this
        · have hN0 : N = 0 := by omega
          simp only [decide_eq_true_eq, hN, if_false]
          have := ih (some ⟨t, []⟩) allowed t hchain' (hfresh.2 hN0) hG a
          simpa using this
      · have hshape := consume_keep_shape W N t e0 hreset
        rw [hshape.1, hshape.2]
        have hinv : InvS W N allowed e0 tlast := hst
        have hkinv := keep_inv W hW N allowed e0 tlast t hle hreset hinv hG
        by_cases hlen : (e0.requests.filter fun x => decide (t - W < x)).length < N
        · simp only [decide_eq_true_eq, hlen, if_true]
          obtain ⟨hinv', hG'⟩ := hkinv.1 hlen
          have := ih (some ⟨e0.windowStart,
              (e0.requests.filter fun x => decide (t - W < x)) ++ [t]⟩)
            (allowed ++ [t]) t hchain' hinv' hG' a
          simpa [List.append_assoc] using this
        · simp only [decide_eq_true_eq, hlen, if_false]
          have hinv' := hkinv.2 hlen
          have := ih (some ⟨e0.windowStart,
              e0.requests.filter fun x => decide (t - W < x)⟩) allowed t hchain' hinv' hG a
          simpa using this

lemma runAllowedTimes_eq (W : Int) (N : Nat) :
    ∀ (trace : List Int) (st : Option RLEntry),
      runAllowedTimes W N trace st =
        (trace.zip (runConsume W N trace st).1).filterMap
          (fun p => if p.2 then some p.1 else none) := by
  intro trace
  induction trace with
  | nil => intro st; rfl
  | cons t ts ih =>
    intro st
    simp only [runAllowedTimes, runConsume, List.zip_cons_cons, List.filterMap_cons]
    by_cases hall : (consume W N t st).1.allowed = true
    · simp [hall, ih]
    · have hall' : (consume W N t st).1.allowed = false := by
        cases h : (consume W N t st).1.allowed
        · rfl
        · exact absurd h hall
      simp [hall', ih]

lemma consume_retained (W : Int) (hW : 0 < W) (N : Nat) (now : Int) (st : Option RLEntry) :
    ∀ s ∈ (consume W N now st).2.requests, now - W < s := by
  intro s hs
  rcases st with _ | e0
  · rw [(consume_none_shape W N now).2] at hs
    split at hs <;> simp at hs
    omega
  · by_cases hreset : e0.windowStart < now - W
    · rw [(consume_reset_shape W N now e0 hreset).2] at hs
      split at hs <;> simp at hs
      omega
    · rw [(consume_keep_shape W N now e0 hreset).2] at hs
      split at hs
      · simp only [List.mem_append, List.mem_filter, List.mem_singleton] at hs
        rcases hs with ⟨_, hdec⟩ | hnow
        · simpa using hdec
        · omega
      · simp only [List.mem_filter] at hs
        simpa using hs.2

/-- **C3 (amended).**  For every window `W > 0`, cap `N`, and monotone trace
of `consume` call times on one key starting from an empty entry, any interval
`[a, a + W)` contains at most `2 * N` allowed calls (the code's
window-reset step discards the live timestamps of the previous window, so the
claimed cap `N` fails — see the counterexample — but each of the at most two
generations overlapping the interval admits at most `N`); and every timestamp
the counter retains for the key is strictly greater than `now - W` at the
moment it is retained. -/
theorem consume_sliding_window_bound (W : Int) (hW : 0 < W) (N : Nat)
    (trace : List Int) (hmono : trace.Chain' (· ≤ ·)) :
    (∀ a : Int,
      ((trace.zip (runConsume W N trace none).1).filterMap
          (fun p => if p.2 then some p.1 else none)).countP
        (fun s => decide (a ≤ s) && decide (s < a + W)) ≤ 2 * N) ∧
    (∀ (now : Int) (st : Option RLEntry),
      ∀ s ∈ (consume W N now st).2.requests, now - W < s) := by
  constructor
  · intro a
    rw [← runAllowedTimes_eq]
    cases trace with
    | nil => simp [runAllowedTimes]
    | cons t ts =>
      have hchain : List.Chain (· ≤ ·) t (t :: ts) :=
        List.chain_cons.mpr ⟨le_refl t, hmono⟩
      have h := runConsume_G W hW N (t :: ts) none [] t hchain rfl (by simp) a
      simpa [inWin] using h
  · intro now st
    exact consume_retained W hW N now st

/-- **C3, counterexample to the claim as stated.**  With `W = 1000` and
`N = 1`, calls at times 0, 1000 and 1001 are all allowed: the call at 1000
resets the window (`entry.windowStart < windowStart`) and replaces the entry
instead of filtering it, dropping the live timestamp 1000 — so the interval
`[1000, 2000)` contains two allowed calls, violating the cap `N = 1`. -/
theorem consume_window_cap_violated :
    (runConsume 1000 1 [0, 1000, 1001] none).1 = [true, true, true] ∧
    ¬ (((([0, 1000, 1001] : List Int).zip
          (runConsume 1000 1 [0, 1000, 1001] none).1).filterMap
        (fun p => if p.2 then some p.1 else none)).countP
      (fun s => decide (1000 ≤ s) && decide (s < 1000 + 1000)) ≤ 1) := by
  constructor
  · rfl
  · decide

/-- Witness for `consume_sliding_window_bound`: the monotone trace
0, 100, 200 with `W = 1000`, `N = 2` stays within the `2 * N` bound on
`[0, 1000)`, and the retained-timestamps invariant holds at `now = 500`. -/
theorem consume_sliding_window_bound_witness :
    (((([0, 100, 200] : List Int).zip
          (runConsume 1000 2 [0, 100, 200] none).1).filterMap
        (fun p => if p.2 then some p.1 else none)).countP
      (fun s => decide (0 ≤ s) && decide (s < 0 + 1000)) ≤ 2 * 2) ∧
    (∀ s ∈ (consume 1000 2 500 none).2.requests, 500 - 1000 < s) :=
  ⟨(consume_sliding_window_bound 1000 (by decide) 2 [0, 100, 200]
      (by norm_num [List.chain'_cons])).1 0,
   (consume_sliding_window_bound 1000 (by decide) 2 [0, 100, 200]
      (by norm_num [List.chain'_cons])).2 500 none⟩

/-! ### C7: IP access control (AccessControl in src/core/metrics.js) -/

/-- `Number(part)` on the fragment reachable from `ip.split('.')` in
`_ipToNum`: `Number('') === 0`, a run of decimal digits parses as a decimal
numeral, and any other character yields `none` (JS `NaN`).  Exotic `Number`
syntaxes (sign, exponent, hex, `Infinity`) are collapsed to `none`; JS
rejects signed and non-numeric parts through its
`isNaN(p) || p < 0 || p > 255` guard just the same, and the remaining forms
never denote an IPv4 octet. -/
def jsNumberOctet (part : String) : Option Nat :=
  match part.data with
  | [] => some 0
  | cs =>
      if cs.all Char.isDigit
      then some (cs.foldl (fun acc c => acc * 10 + (c.toNat - 48)) 0)
      else none

/-- `parseInt(bits)` on unsigned decimal input: the longest leading run of
decimal digits, `none` (JS `NaN`) when there is none. -/
def jsParseIntNat (s : String) : Option Nat :=
  match s.data.takeWhile Char.isDigit with
  | [] => none
  | ds => some (ds.foldl (fun acc c => acc * 10 + (c.toNat - 48)) 0)

/-- Bitwise AND over 32 bit positions, structurally recursive on the fuel so
that the kernel can evaluate it (unlike `Nat.land`, whose well-founded
recursion gets stuck under `decide`). -/
def landAux : Nat → Nat → Nat → Nat
  | 0, _, _ => 0
  | fuel + 1, a, b =>
      (if a % 2 = 1 ∧ b % 2 = 1 then 1 else 0) + 2 * landAux fuel (a / 2) (b / 2)

/-- JS `x & y`: both operands pass through `ToInt32`; we represent each
signed 32-bit result by its unsigned 32-bit pattern (`ToInt32` is a bijection
on patterns that commutes with `&` and preserves `===`, so every comparison
below is unaffected by the signed reading). -/
def jsAnd32 (a b : Nat) : Nat := landAux 32 (a % 2 ^ 32) (b % 2 ^ 32)

/-- JS `~x` on a 32-bit operand, as an unsigned pattern. -/
def jsNot32 (x : Nat) : Nat := 2 ^ 32 - 1 - x % 2 ^ 32

/-- `AccessControl._normalizeIP`. -/
def normalizeIP (ip : String) : String :=
  if ip = "" then ""
  else if strStartsWith ip "::ffff:" then String.mk (ip.data.drop 7)
  else if ip = "::1" then "127.0.0.1"
  else ip

/-- `AccessControl._ipToNum`: split on `.`, apply `Number` to each part,
require exactly four octets in `0..255`, and pack them big-endian.  The JS
value `(p0 << 24) | (p1 << 16) | (p2 << 8) | p3` combines disjoint bit
ranges, so its unsigned 32-bit pattern is the plain sum used here. -/
def ipToNum (ip : String) : Option Nat :=
  match (jsSplit ip '.').map jsNumberOctet with
  | [some p0, some p1, some p2, some p3] =>
      if p0 ≤ 255 ∧ p1 ≤ 255 ∧ p2 ≤ 255 ∧ p3 ≤ 255 then
        some (p0 * 2 ^ 24 + p1 * 2 ^ 16 + p2 * 2 ^ 8 + p3)
      else none
  | _ => none

/-- The mask `~(2 ** (32 - parseInt(bits)) - 1)` of `_matchesCIDR`, as an
unsigned 32-bit pattern.  When `bits` fails to parse (JS `NaN`) the JS
expression evaluates to `~ToInt32(NaN) = ~0 = -1` (all ones); when the parsed
value exceeds 32 the exponent is negative, `2 ** (32 - n) - 1` lies in
`(-1, 0)`, `ToInt32` truncates it to `0`, and the mask is again all ones —
which `32 - n = 0` in truncated `Nat` subtraction reproduces. -/
def cidrMask (bits : String) : Nat :=
  match jsParseIntNat bits with
  | some n => jsNot32 (2 ^ (32 - n) - 1)
  | none => 2 ^ 32 - 1

/-- `AccessControl._matchesCIDR`.  `const [range, bits] = cidr.split('/')`
destructures the first two split components.  `split` never returns an empty
array; when the entry has no `/` (unreachable from `_matchesSet`), `bits` is
`undefined`, `parseInt(undefined)` is `NaN`, and the mask is all ones. -/
def matchesCIDR (ip cidr : String) : Bool :=
  match jsSplit cidr '/' with
  | range :: bits :: _ =>
      let mask := cidrMask bits
      match ipToNum ip, ipToNum range with
      | some ipNum, some rangeNum => jsAnd32 ipNum mask == jsAnd32 rangeNum mask
      | _, _ => false
  | [range] =>
      let mask := 2 ^ 32 - 1
      match ipToNum ip, ipToNum range with
      | some ipNum, some rangeNum => jsAnd32 ipNum mask == jsAnd32 rangeNum mask
      | _, _ => false
  | [] => false

/-- `AccessControl._matchesSet`: first-match-wins iteration over the
entries of the set (a JS `Set`, modeled as the list of its elements). -/
def matchesSet (ip : String) (set : List String) : Bool :=
  set.any fun entry =>
    if strContainsChar entry '/' then matchesCIDR ip entry
    else ip == entry || ip == normalizeIP entry

/-- `AccessControl.isAllowed`, with the mutable `mode`, `whitelist` and
`blacklist` fields passed explicitly; a `Set`'s `size === 0` test is
`List.isEmpty` on its element list. -/
def isAllowed (mode : String) (whitelist blacklist : List String)
    (ip : String) : Bool :=
  if mode = "disabled" then true
  else
    let normalizedIP := normalizeIP ip
    if mode = "whitelist" then
      whitelist.isEmpty || matchesSet normalizedIP whitelist
    else if mode = "blacklist" then !matchesSet normalizedIP blacklist
    else true

lemma landAux_mask : ∀ (f a m : Nat), m ≤ f → a < 2 ^ f →
    landAux f a (2 ^ f - 2 ^ m) = a / 2 ^ m * 2 ^ m := by
  intro f
  induction f with
  | zero =>
      intro a m hm ha
      have hm0 : m = 0 := Nat.le_zero.mp hm
      subst hm0
      simp only [pow_zero] at ha ⊢
      have ha0 : a = 0 := by omega
      subst ha0
      simp [landAux]
  | succ f ih =>
      intro a m hm ha
      have hx : 1 ≤ 2 ^ f := Nat.one_le_two_pow
      have hsucc : (2 : Nat) ^ (f + 1) = 2 ^ f * 2 := pow_succ 2 f
      have ha2 : a / 2 < 2 ^ f := by omega
      cases m with
      | zero =>
          have hb1 : (2 ^ (f + 1) - 1) % 2 = 1 := by rw [hsucc]; omega
          have hb2 : (2 ^ (f + 1) - 1) / 2 = 2 ^ f - 2 ^ 0 := by
            simp only [pow_zero]; rw [hsucc]; omega
          simp only [pow_zero, landAux]
          rw [show (2 : Nat) ^ (f + 1) - 1 = 2 ^ (f + 1) - 2 ^ 0 by simp] at hb1 hb2 ⊢
          rw [hb1, hb2, ih (a / 2) 0 (Nat.zero_le f) ha2]
          simp only [pow_zero, Nat.div_one, Nat.mul_one]
          by_cases hpar : a % 2 = 1 <;> simp [hpar] <;> omega
      | succ m' =>
          have hm' : m' ≤ f := Nat.succ_le_succ_iff.mp hm
          have hy : 1 ≤ 2 ^ m' := Nat.one_le_two_pow
          have hyx : (2 : Nat) ^ m' ≤ 2 ^ f := Nat.pow_le_pow_right (by norm_num) hm'
          have hmsucc : (2 : Nat) ^ (m' + 1) = 2 ^ m' * 2 := pow_succ 2 m'
          have hb0 : (2 ^ (f + 1) - 2 ^ (m' + 1)) % 2 = 0 := by
            rw [hsucc, hmsucc]; omega
          have hb2 : (2 ^ (f + 1) - 2 ^ (m' + 1)) / 2 = 2 ^ f - 2 ^ m' := by
            rw [hsucc, hmsucc]; omega
          simp only [landAux]
          rw [hb0, hb2, ih (a / 2) m' hm' ha2, if_neg (by simp)]
          have hdiv : a / 2 / 2 ^ m' = a / 2 ^ (m' + 1) := by
            rw [Nat.div_div_eq_div_mul, hmsucc, Nat.mul_comm]
          rw [hdiv, hmsucc]
          ring

lemma jsAnd32_mask (a n : Nat) (ha : a < 2 ^ 32) (hn : n ≤ 32) :
    jsAnd32 a (jsNot32 (2 ^ (32 - n) - 1)) = a / 2 ^ (32 - n) * 2 ^ (32 - n) := by
  have hm : 32 - n ≤ 32 := Nat.sub_le _ _
  have hle : (2 : Nat) ^ (32 - n) ≤ 2 ^ 32 := Nat.pow_le_pow_right (by norm_num) hm
  have h1 : 1 ≤ (2 : Nat) ^ (32 - n) := Nat.one_le_two_pow
  have hval : jsNot32 (2 ^ (32 - n) - 1) = 2 ^ 32 - 2 ^ (32 - n) := by
    unfold jsNot32
    rw [Nat.mod_eq_of_lt (by omega)]
    omega
  rw [hval]
  unfold jsAnd32
  rw [Nat.mod_eq_of_lt ha, Nat.mod_eq_of_lt (by omega)]
  exact landAux_mask 32 a (32 - n) hm ha

lemma ipToNum_lt (ip : String) (v : Nat) (h : ipToNum ip = some v) : v < 2 ^ 32 := by
  unfold ipToNum at h
  split at h
  · split at h
    · rename_i p0 p1 p2 p3 _ hb
      obtain ⟨h0, h1, h2, h3⟩ := hb
      have hv : v = p0 * 2 ^ 24 + p1 * 2 ^ 16 + p2 * 2 ^ 8 + p3 :=
        (Option.some.injEq _ _ ▸ h).symm
      have e24 : (2 : Nat) ^ 24 = 16777216 := by norm_num
      have e16 : (2 : Nat) ^ 16 = 65536 := by norm_num
      have e8 : (2 : Nat) ^ 8 = 256 := by norm_num
      have e32 : (2 : Nat) ^ 32 = 4294967296 := by norm_num
      rw [hv, e24, e16, e8, e32]
      omega
    · exact absurd h (by simp)
  · exact absurd h (by simp)

lemma splitOnChar_of_not_contains (c : Char) (l : List Char)
    (h : l.contains c = false) : splitOnChar c l = [l] := by
  induction l with
  | nil => rfl
  | cons x xs ih =>
      simp only [List.contains_cons, Bool.or_eq_false_iff] at h
      obtain ⟨hx, hxs⟩ := h
      have hne : x ≠ c := by
        intro he
        subst he
        simp at hx
      rw [splitOnChar, ih hxs]
      simp [hne]

/-- C7: In whitelist mode, a CIDR whitelist entry `a.b.c.d/n` admits exactly
the IPs whose top `n` bits agree with the range's (the request IP being
normalized first: a `::ffff:` prefix is stripped and `::1` maps to
`127.0.0.1`); when that CIDR is the only entry every other IP is refused; and
a slash-free entry matches exactly when the normalized request IP equals the
entry string or the entry string's own normalization. -/
theorem isAllowed_whitelist_cidr
    (entry rangeStr bitsStr ip : String) (n ipNum rangeNum : Nat)
    (blacklist : List String)
    (hsplit : jsSplit entry '/' = [rangeStr, bitsStr])
    (hbits : jsParseIntNat bitsStr = some n) (hn : n ≤ 32)
    (hip : ipToNum (normalizeIP ip) = some ipNum)
    (hrange : ipToNum rangeStr = some rangeNum) :
    (∀ whitelist, entry ∈ whitelist →
        ipNum / 2 ^ (32 - n) = rangeNum / 2 ^ (32 - n) →
        isAllowed ("whitelist") whitelist blacklist ip = true) ∧
    (isAllowed ("whitelist") [entry] blacklist ip = true ↔
        ipNum / 2 ^ (32 - n) = rangeNum / 2 ^ (32 - n)) ∧
    (∀ e, strContainsChar e '/' = false →
        (isAllowed ("whitelist") [e] blacklist ip = true ↔
          (normalizeIP ip = e ∨ normalizeIP ip = normalizeIP e))) := by
  have hslash : strContainsChar entry '/' = true := by
    cases hc : strContainsChar entry '/' with
    | false =>
        exfalso
        have hone : splitOnChar '/' entry.data = [entry.data] :=
          splitOnChar_of_not_contains _ _ hc
        rw [jsSplit, hone] at hsplit
        simp at hsplit
    | true => rfl
  have hcidr : matchesCIDR (normalizeIP ip) entry =
      (ipNum / 2 ^ (32 - n) * 2 ^ (32 - n) == rangeNum / 2 ^ (32 - n) * 2 ^ (32 - n)) := by
    unfold matchesCIDR
    rw [hsplit]
    simp only [hip, hrange]
    have hmask : cidrMask bitsStr = jsNot32 (2 ^ (32 - n) - 1) := by
      unfold cidrMask
      rw [hbits]
    rw [hmask, jsAnd32_mask ipNum n (ipToNum_lt _ _ hip) hn,
      jsAnd32_mask rangeNum n (ipToNum_lt _ _ hrange) hn]
  have hpow : 0 < (2 : Nat) ^ (32 - n) := Nat.pos_pow_of_pos _ (by norm_num)
  have hiff : (ipNum / 2 ^ (32 - n) * 2 ^ (32 - n) ==
      rangeNum / 2 ^ (32 - n) * 2 ^ (32 - n)) = true ↔
      ipNum / 2 ^ (32 - n) = rangeNum / 2 ^ (32 - n) := by
    rw [beq_iff_eq]
    constructor
    · intro h
      exact Nat.eq_of_mul_eq_mul_right hpow h
    · intro h
      rw [h]
  refine ⟨?_, ?_, ?_⟩
  · intro whitelist hmem htop
    unfold isAllowed
    rw [if_neg (by decide), if_pos rfl]
    have hms : matchesSet (normalizeIP ip) whitelist = true := by
      unfold matchesSet
      refine List.any_eq_true.mpr ⟨entry, hmem, ?_⟩
      rw [if_pos hslash, hcidr]
      exact hiff.mpr htop
    rw [hms, Bool.or_true]
  · unfold isAllowed
    rw [if_neg (by decide), if_pos rfl]
    unfold matchesSet
    simp only [List.any_cons, List.any_nil, Bool.or_false]
    rw [if_pos hslash, hcidr]
    exact hiff
  · intro e he
    unfold isAllowed
    rw [if_neg (by decide), if_pos rfl]
    unfold matchesSet
    simp only [List.any_cons, List.any_nil, Bool.or_false]
    rw [if_neg (by simp [he])]
    simp [beq_iff_eq]

/-- C7 counterexample to "an entry without a slash matches only by exact
string equality": the slash-free whitelist entry `::ffff:10.0.0.1` admits the
request IP `10.0.0.1`, a different string, because `_matchesSet` also
compares against the entry's normalization. -/
theorem isAllowed_slashless_entry_matches_normalized_entry :
    isAllowed ("whitelist") [("::ffff:10.0.0.1")] [] ("10.0.0.1") = true ∧
    ("10.0.0.1" : String) ≠ "::ffff:10.0.0.1" := by
  constructor
  · decide
  · decide

/-- C7 witness: `10.42.0.0/16` admits `::ffff:10.42.7.9` (top 16 bits agree
after normalization) also from a larger whitelist, refuses `10.43.0.1`, and
the slash-free entry `127.0.0.1` admits `::1`. -/
theorem isAllowed_whitelist_cidr_witness :
    isAllowed ("whitelist") [("1.2.3.4"), ("10.42.0.0/16")] [] ("::ffff:10.42.7.9") = true ∧
    ¬ isAllowed ("whitelist") [("10.42.0.0/16")] [] ("10.43.0.1") = true ∧
    isAllowed ("whitelist") [("127.0.0.1")] [] ("::1") = true := by
  refine ⟨?_, ?_, ?_⟩
  · exact (isAllowed_whitelist_cidr ("10.42.0.0/16") ("10.42.0.0") ("16")
      ("::ffff:10.42.7.9") 16 170526473 170524672 [] (by decide) (by decide)
      (by decide) (by decide) (by decide)).1
      [("1.2.3.4"), ("10.42.0.0/16")] (by decide) (by decide)
  · intro h
    exact absurd ((isAllowed_whitelist_cidr ("10.42.0.0/16") ("10.42.0.0") ("16")
      ("10.43.0.1") 16 170590209 170524672 [] (by decide) (by decide)
      (by decide) (by decide) (by decide)).2.1.mp h) (by decide)
  · exact ((isAllowed_whitelist_cidr ("10.42.0.0/16") ("10.42.0.0") ("16")
      ("::1") 16 2130706433 170524672 [] (by decide) (by decide)
      (by decide) (by decide) (by decide)).2.2 ("127.0.0.1")
      (by decide)).mpr (Or.inl (by decide))
